import Mathlib

/-
Verification of the property-financials calculator (`src/calculator.ts` of the
property-backend repository).

Modelling conventions:
* JS numbers are modelled as exact real numbers (`ℝ`); `Math.pow` is `Real.rpow`
  (written `x ^ y` with a real exponent), `Math.floor` is `Int.floor`,
  `Math.max` is `max`.  `NaN`/`undefined` inputs are outside the model: every
  numeric field of the input record is already a real number, so the source's
  `getSafeValue` normalisation acts as the identity.
* JS `x || d` on a number is falsy exactly on `0` (and `NaN`), modelled by `jsOr`;
  on a string it is falsy exactly on `""`, modelled by `jsOrStr`.
* The `for` loops of the source are modelled by structural recursion.  The
  disbursement loop advances a real-valued month counter by a nonzero interval,
  so it is given an explicit iteration budget (`fuel`) that provably dominates
  the number of iterations the JS loop performs (see `disburseLoop_exit` etc.).
* Mutable accumulation is modelled by explicit state records threaded through
  the recursion, one field per mutable local of the source.
-/

namespace PropertyBackend

noncomputable section

/-- JS `x || d` for numbers: `0` is falsy and replaced by the default. -/
noncomputable def jsOr (x d : ℝ) : ℝ := if x = 0 then d else x

/-- JS `s || d` for strings: only the empty string is falsy. -/
def jsOrStr (s d : String) : String := if s = "" then d else s

/-- `getSafeValue` of the source maps blank / non-numeric input to `0` and parses
numeric input unchanged; on the already-numeric model it is the identity. -/
def getSafeValue (x : ℝ) : ℝ := x

/-- `calculateEMI` (src/calculator.ts, lines 91-99).  The guards `!principal`,
`!years || years <= 0` and `!annualRate` of the source are `= 0`, `≤ 0` and `= 0`
on real inputs (`NaN` does not occur in the model). -/
noncomputable def calculateEMI (principal annualRate years : ℝ) : ℝ :=
  if principal = 0 then 0
  else if years ≤ 0 then 0
  else if annualRate = 0 then principal / (years * 12)
  else
    let monthlyRate := annualRate / (12 * 100)
    let months := years * 12
    principal * monthlyRate * (1 + monthlyRate) ^ months /
      ((1 + monthlyRate) ^ months - 1)

/-- `calculateOutstandingAfterPayments` (src/calculator.ts, lines 101-113). -/
noncomputable def calculateOutstandingAfterPayments
    (principal annualRate years paymentsMade : ℝ) : ℝ :=
  if principal = 0 then 0
  else if paymentsMade ≤ 0 then principal
  else
    let totalMonths := years * 12
    if totalMonths ≤ paymentsMade then 0
    else if annualRate = 0 then
      let monthlyPrincipal := principal / totalMonths
      max 0 (principal - monthlyPrincipal * paymentsMade)
    else
      let monthlyRate := annualRate / (12 * 100)
      let outstanding := principal *
        ((1 + monthlyRate) ^ totalMonths - (1 + monthlyRate) ^ paymentsMade) /
        ((1 + monthlyRate) ^ totalMonths - 1)
      max 0 outstanding

/-- State of the month loop of `calculateTotalInterestPaid`:
`(interestPaid, remainingPrincipal)`. -/
noncomputable def interestLoop (monthlyRate emi : ℝ) : ℕ → ℝ × ℝ → ℝ × ℝ
  | 0, st => st
  | n + 1, st =>
    interestLoop monthlyRate emi n
      (st.1 + st.2 * monthlyRate, st.2 - (emi - st.2 * monthlyRate))

/-- `calculateTotalInterestPaid` (src/calculator.ts, lines 115-128).  The JS
loop `for (i = 0; i < paymentsMade; i++)` on an integer counter performs
`⌈paymentsMade⌉` iterations once the `paymentsMade ≤ 0` guard has passed. -/
noncomputable def calculateTotalInterestPaid
    (principal annualRate years paymentsMade : ℝ) : ℝ :=
  if principal = 0 ∨ paymentsMade ≤ 0 then 0
  else
    let monthlyRate := annualRate / (12 * 100)
    let emi := calculateEMI principal annualRate years
    (interestLoop monthlyRate emi (⌈paymentsMade⌉).toNat (0, principal)).1

/-- Input record `Assumptions` (src/calculator.ts, lines 5-26). -/
structure Assumptions where
  homeLoanRate : ℝ
  homeLoanTerm : ℝ
  homeLoanShare : ℝ
  homeLoanStartMonth : ℝ
  homeLoanStartMode : String
  personalLoan1Rate : ℝ
  personalLoan1Term : ℝ
  personalLoan1StartMonth : ℝ
  personalLoan1Share : ℝ
  personalLoan2Rate : ℝ
  personalLoan2Term : ℝ
  personalLoan2StartMonth : ℝ
  personalLoan2Share : ℝ
  downPaymentShare : ℝ
  investmentPeriod : ℝ
  clpDurationYears : ℝ
  bankDisbursementStartMonth : ℝ
  bankDisbursementInterval : ℝ
  lastBankDisbursementMonth : ℝ
  holdingPeriodUnit : String

/-- Input record `PropertyInput` (src/calculator.ts, lines 32-38). -/
structure PropertyInput where
  id : ℝ
  name : String
  location : String
  size : ℝ
  possessionMonths : ℝ

/-- Input record `ScenarioInput` (src/calculator.ts, lines 40-50). -/
structure ScenarioInput where
  purchasePrice : ℝ
  otherCharges : ℝ
  stampDuty : ℝ
  gstPercentage : ℝ
  paymentPlan : String
  assumptions : Assumptions
  selectedProperty : PropertyInput
  selectedExitPrice : ℝ
  scenarioExitPrices : List ℝ

/-- One entry of the dynamically-typed `idcSchedule` array.  The source first
pushes `{slabNo, releaseMonth, amount, interestCost}` and later (lines 421-446)
re-creates each entry with the interest columns filled in; fields that are not
yet present in JS are `0` in the model until the annotation pass sets them. -/
structure SlabRec where
  slabNo : ℕ
  releaseMonth : ℝ
  amount : ℝ
  interestCost : ℝ
  monthlyInterest : ℝ
  cumulativeMonthlyInterest : ℝ
  duration : ℝ
  totalCostForSlab : ℝ

/-- A freshly pushed schedule entry (lines 231-236 / 243). -/
def mkSlab (no : ℕ) (rel amt : ℝ) : SlabRec :=
  { slabNo := no, releaseMonth := rel, amount := amt, interestCost := 0,
    monthlyInterest := 0, cumulativeMonthlyInterest := 0, duration := 0,
    totalCostForSlab := 0 }

/-- The disbursement loop (src/calculator.ts, lines 222-239):
`for (m = startMonth; m <= fundingEndMonth; m += interval)` with an early
`break` when at most `1` is left, and the final / low-remainder slab absorbing
the whole remaining amount.  `fuel` is an explicit iteration budget; the budget
passed by `buildSchedule` dominates the number of iterations the JS loop makes
(see `disburseLoop` lemmas below), so the model never exhausts it. -/
noncomputable def disburseLoop (fundingEnd interval slabAmount : ℝ) :
    ℕ → ℝ → ℝ → List SlabRec → List SlabRec
  | 0, _, _, acc => acc
  | fuel + 1, m, remainingLoan, acc =>
    if m ≤ fundingEnd then
      if remainingLoan ≤ 1 then acc
      else
        let thisSlab :=
          if fundingEnd < m + interval ∨ remainingLoan - slabAmount < 10 then
            remainingLoan
          else slabAmount
        disburseLoop fundingEnd interval slabAmount fuel (m + interval)
          (remainingLoan - thisSlab)
          (acc ++ [mkSlab (acc.length + 1) m thisSlab])
    else acc

/-- Generation of the disbursement schedule (src/calculator.ts, lines 202-245):
slab count `max(1, ⌊(end − start)/interval⌋ + 1)`, equal `slabAmount`, the loop
above, and the fallback single slab when the loop produced nothing. -/
noncomputable def buildSchedule
    (homeLoanAmount startMonth interval fundingEnd : ℝ) : List SlabRec :=
  if 0 < homeLoanAmount then
    let calculatedSlabs : ℤ := ⌊(fundingEnd - startMonth) / interval⌋ + 1
    let numberOfSlabs : ℤ := max 1 calculatedSlabs
    let slabAmount : ℝ := homeLoanAmount / (numberOfSlabs : ℝ)
    let fuel : ℕ := (⌈(fundingEnd - startMonth) / interval⌉).toNat + 2
    let s := disburseLoop fundingEnd interval slabAmount fuel startMonth
      homeLoanAmount []
    if s.isEmpty then [mkSlab 1 startMonth homeLoanAmount] else s
  else []

/-- The `activeSlabs` ledger column holds either a slab count or the literal
string `'Max'` (src/calculator.ts, line 336). -/
inductive ActiveSlabsCell where
  | count (n : ℕ)
  | maxed
deriving DecidableEq

/-- Ledger record `LedgerRow` (src/calculator.ts, lines 52-64).  The month is
the loop counter, a natural number. -/
structure LedgerRow where
  month : ℕ
  disbursement : ℝ
  activeSlabs : ActiveSlabsCell
  cumulativeDisbursement : ℝ
  outstandingBalance : ℝ
  hlComponent : ℝ
  interestPart : ℝ
  principalPart : ℝ
  isFullEMI : Bool
  pl1 : ℝ
  totalOutflow : ℝ

/-- The per-scenario constants read by the ledger loop of
`calculateMetricsForPrice` (src/calculator.ts, lines 258-346). -/
structure LedgerParams where
  idcSchedule : List SlabRec
  hlModeVal : String
  realHomeLoanStartMonth : ℝ
  hlRate : ℝ
  homeLoanEMI : ℝ
  effectivePL1Start : ℝ
  personalLoan1EMI : ℝ
  lastDemandMonth : ℝ
  possessionMonths : ℝ

/-- The mutable locals of the ledger loop, one field per `let` of the source
(lines 250-269), plus the month counter and the accumulated rows. -/
structure LedgerState where
  month : ℕ
  cumDisb : ℝ
  outBal : ℝ
  activeSlabs : ℕ
  runningTotalIDC : ℝ
  runningTotalOutflow : ℝ
  isFirstIDCPayment : Bool
  minIDCEMI : ℝ
  maxIDCEMI : ℝ
  rows : List LedgerRow

/-- Initial ledger state (all accumulators zero, no rows). -/
def ledgerInit : LedgerState :=
  { month := 0, cumDisb := 0, outBal := 0, activeSlabs := 0,
    runningTotalIDC := 0, runningTotalOutflow := 0, isFirstIDCPayment := false,
    minIDCEMI := 0, maxIDCEMI := 0, rows := [] }

/-- `idcSchedule.find(s => s.releaseMonth === m)`: first entry released exactly
at month `m`. -/
noncomputable def findSlab : List SlabRec → ℝ → Option SlabRec
  | [], _ => none
  | s :: rest, m => if s.releaseMonth = m then some s else findSlab rest m

/-- One iteration of the ledger loop (src/calculator.ts, lines 271-346),
statement for statement:
 A. apply the disbursement scheduled for this month (if any),
 B. interest on the resulting outstanding balance,
 C. full-EMI payment once `realHomeLoanStartMonth ≤ m`, otherwise the pre-EMI
    payment (`0` in manual mode, interest-only plus IDC accumulation in
    default mode),
 D. min/max pre-EMI payment statistics,
 then the personal-loan-1 installment, outflow accumulation and the row. -/
noncomputable def ledgerStep (p : LedgerParams) (st : LedgerState) : LedgerState :=
  let m := st.month
  let found := findSlab p.idcSchedule (m : ℝ)
  let currentDisbursement := match found with | some s => s.amount | none => 0
  let cumDisb := match found with
    | some s => st.cumDisb + s.amount
    | none => st.cumDisb
  let outBal0 := match found with
    | some s =>
      if p.hlModeVal = "manual" then st.outBal + s.amount
      else if (m : ℝ) < p.realHomeLoanStartMonth then st.cumDisb + s.amount
      else st.outBal + s.amount
    | none => st.outBal
  let activeSlabs := match found with
    | some _ => st.activeSlabs + 1
    | none => st.activeSlabs
  let interestForThisMonth :=
    if 0 < outBal0 then outBal0 * (p.hlRate / 100) / 12 else 0
  let hlPayment :=
    if p.realHomeLoanStartMonth ≤ (m : ℝ) then p.homeLoanEMI
    else if p.hlModeVal = "manual" then 0
    else interestForThisMonth
  let principalRepaidThisMonth :=
    if p.realHomeLoanStartMonth ≤ (m : ℝ) then
      if 0 < outBal0 then max 0 (hlPayment - interestForThisMonth) else 0
    else 0
  let outBal1 := outBal0 - principalRepaidThisMonth
  let runningTotalIDC :=
    if p.realHomeLoanStartMonth ≤ (m : ℝ) then st.runningTotalIDC
    else if p.hlModeVal = "manual" then st.runningTotalIDC
    else st.runningTotalIDC + interestForThisMonth
  let isFullEMI : Bool := if p.realHomeLoanStartMonth ≤ (m : ℝ) then true else false
  let idcStat : Bool := if isFullEMI = false ∧ 0 < hlPayment then true else false
  let minIDCEMI :=
    if idcStat = true then
      if st.isFirstIDCPayment then st.minIDCEMI else hlPayment
    else st.minIDCEMI
  let maxIDCEMI := if idcStat = true then hlPayment else st.maxIDCEMI
  let isFirstIDCPayment := if idcStat = true then true else st.isFirstIDCPayment
  let currentPL1 := if p.effectivePL1Start ≤ (m : ℝ) then p.personalLoan1EMI else 0
  let totalRowOutflow := hlPayment + currentPL1
  let runningTotalOutflow :=
    if (m : ℝ) ≤ p.possessionMonths then st.runningTotalOutflow + totalRowOutflow
    else st.runningTotalOutflow
  let row : LedgerRow :=
    { month := m, disbursement := currentDisbursement,
      activeSlabs := if p.lastDemandMonth < (m : ℝ) then ActiveSlabsCell.maxed
        else ActiveSlabsCell.count activeSlabs,
      cumulativeDisbursement := cumDisb,
      outstandingBalance := max 0 outBal1,
      hlComponent := hlPayment, interestPart := interestForThisMonth,
      principalPart := principalRepaidThisMonth, isFullEMI := isFullEMI,
      pl1 := currentPL1, totalOutflow := totalRowOutflow }
  { month := m + 1, cumDisb := cumDisb, outBal := outBal1,
    activeSlabs := activeSlabs, runningTotalIDC := runningTotalIDC,
    runningTotalOutflow := runningTotalOutflow,
    isFirstIDCPayment := isFirstIDCPayment, minIDCEMI := minIDCEMI,
    maxIDCEMI := maxIDCEMI, rows := st.rows ++ [row] }

/-- Iterating the ledger step. -/
noncomputable def ledgerLoop (p : LedgerParams) : ℕ → LedgerState → LedgerState
  | 0, st => st
  | k + 1, st => ledgerLoop p k (ledgerStep p st)

/-- Number of iterations of `for (m = 0; m <= tableEndMonth; m++)`:
`⌊tableEndMonth⌋ + 1` when `tableEndMonth ≥ 0`, none otherwise. -/
def ledgerLen (tableEndMonth : ℝ) : ℕ :=
  if 0 ≤ tableEndMonth then (⌊tableEndMonth⌋).toNat + 1 else 0

/-- The IDC annotation pass (src/calculator.ts, lines 421-446): `map` over the
schedule carrying the running cumulative monthly interest.  (The source also
accumulates `calculatedGrandTotal`, which it never reads afterwards.) -/
noncomputable def idcAnnotate (hlRate idcCutoffMonth : ℝ) :
    List SlabRec → ℝ → List SlabRec
  | [], _ => []
  | s :: rest, runningMonthlyInt =>
    let monthlyInterest := s.amount * (hlRate / 100) / 12
    let duration := max 0 (idcCutoffMonth - s.releaseMonth + 1)
    let totalCostForSlab := monthlyInterest * duration
    let annotated : SlabRec :=
      { s with
        monthlyInterest := monthlyInterest
        duration := duration
        totalCostForSlab := totalCostForSlab
        cumulativeMonthlyInterest := runningMonthlyInt + monthlyInterest
        interestCost := totalCostForSlab }
    annotated ::
      idcAnnotate hlRate idcCutoffMonth rest (runningMonthlyInt + monthlyInterest)

/-- Output record `IdcReport` (src/calculator.ts, lines 76-82). -/
structure IdcReport where
  grandTotalInterest : ℝ
  minMonthlyInterest : ℝ
  maxMonthlyInterest : ℝ
  schedule : List SlabRec
  cutoffMonth : ℝ

/-- `totalHoldingMonths` (lines 138-143). -/
def totalHoldingMonthsOf (a : Assumptions) : ℝ :=
  if a.holdingPeriodUnit = "months" then a.investmentPeriod
  else a.investmentPeriod * 12

/-- `possessionMonths` (line 146). -/
def possessionOf (data : ScenarioInput) : ℝ :=
  data.selectedProperty.possessionMonths

/-- `totalCost = baseCost = propertySize * purchasePrice` (lines 148-152);
`otherCharges`, stamp duty and GST are not added. -/
def totalCostOf (data : ScenarioInput) : ℝ :=
  data.selectedProperty.size * data.purchasePrice

/-- The share split by payment plan (lines 155-169), as
`(homeLoan, personalLoan1, personalLoan2, downPayment)`. -/
def loanShares (a : Assumptions) (paymentPlan : String) : ℝ × ℝ × ℝ × ℝ :=
  if paymentPlan = "clp" then (80, 10, 10, 0)
  else if paymentPlan = "20-80" then (80, 20, 0, 0)
  else if paymentPlan = "40-60" then (60, 40, 0, 0)
  else if paymentPlan = "rtm" then (80, 20, 0, 0)
  else (a.homeLoanShare, a.personalLoan1Share, a.personalLoan2Share,
    a.downPaymentShare)

def homeLoanShareOf (data : ScenarioInput) : ℝ :=
  (loanShares data.assumptions data.paymentPlan).1

def personalLoan1ShareOf (data : ScenarioInput) : ℝ :=
  (loanShares data.assumptions data.paymentPlan).2.1

def personalLoan2ShareOf (data : ScenarioInput) : ℝ :=
  (loanShares data.assumptions data.paymentPlan).2.2.1

def downPaymentShareOf (data : ScenarioInput) : ℝ :=
  (loanShares data.assumptions data.paymentPlan).2.2.2

/-- Loan amounts from shares (lines 171-175). -/
def homeLoanAmountOf (data : ScenarioInput) : ℝ :=
  totalCostOf data * (homeLoanShareOf data / 100)

def personalLoan1AmountOf (data : ScenarioInput) : ℝ :=
  totalCostOf data * (personalLoan1ShareOf data / 100)

def personalLoan2AmountOf (data : ScenarioInput) : ℝ :=
  totalCostOf data * (personalLoan2ShareOf data / 100)

def downPaymentAmountOf (data : ScenarioInput) : ℝ :=
  totalCostOf data * (downPaymentShareOf data / 100)

noncomputable def homeLoanEMIOf (data : ScenarioInput) : ℝ :=
  calculateEMI (homeLoanAmountOf data) data.assumptions.homeLoanRate
    data.assumptions.homeLoanTerm

noncomputable def personalLoan1EMIOf (data : ScenarioInput) : ℝ :=
  calculateEMI (personalLoan1AmountOf data) data.assumptions.personalLoan1Rate
    data.assumptions.personalLoan1Term

noncomputable def personalLoan2EMIOf (data : ScenarioInput) : ℝ :=
  calculateEMI (personalLoan2AmountOf data) data.assumptions.personalLoan2Rate
    data.assumptions.personalLoan2Term

/-- `hlMode = assumptions.homeLoanStartMode || 'default'` (line 181). -/
def hlMode (a : Assumptions) : String := jsOrStr a.homeLoanStartMode "default"

/-- The funding end month `lastDemandMonth` (lines 184-187):
the explicit last-disbursement month when positive, else the
construction-duration end when positive, else `possessionMonths || 24`. -/
noncomputable def lastDemandMonth (a : Assumptions) (possessionMonths : ℝ) : ℝ :=
  let explicitLast := a.lastBankDisbursementMonth
  let constructionEnd := a.clpDurationYears * 12
  if 0 < explicitLast then explicitLast
  else if 0 < constructionEnd then constructionEnd
  else jsOr possessionMonths 24

noncomputable def lastDemandMonthOf (data : ScenarioInput) : ℝ :=
  lastDemandMonth data.assumptions (possessionOf data)

/-- `realHomeLoanStartMonth` (lines 189-194). -/
noncomputable def realHomeLoanStartMonthOf (data : ScenarioInput) : ℝ :=
  if hlMode data.assumptions = "manual" then data.assumptions.homeLoanStartMonth
  else lastDemandMonthOf data + data.assumptions.homeLoanStartMonth + 1

/-- `idcCutoffMonth = realHomeLoanStartMonth - 1` (line 195). -/
noncomputable def idcCutoffMonthOf (data : ScenarioInput) : ℝ :=
  realHomeLoanStartMonthOf data - 1

/-- `startMonth` of the disbursement loop (lines 203-208): `…StartMonth || 1`,
overridden to `0` in manual mode when the raw input is exactly `0`. -/
noncomputable def startMonthOf (data : ScenarioInput) : ℝ :=
  let s := jsOr data.assumptions.bankDisbursementStartMonth 1
  if hlMode data.assumptions = "manual" ∧
      data.assumptions.bankDisbursementStartMonth = 0 then 0
  else s

/-- `interval = …Interval || 3` (line 210). -/
noncomputable def intervalOf (data : ScenarioInput) : ℝ :=
  jsOr data.assumptions.bankDisbursementInterval 3

/-- The raw (pre-annotation) `idcSchedule` (lines 197-245); the funding end of
the loop is `lastDemandMonth` (line 211). -/
noncomputable def idcScheduleRawOf (data : ScenarioInput) : List SlabRec :=
  buildSchedule (homeLoanAmountOf data) (startMonthOf data) (intervalOf data)
    (lastDemandMonthOf data)

noncomputable def ledgerParamsOf (data : ScenarioInput) : LedgerParams :=
  { idcSchedule := idcScheduleRawOf data,
    hlModeVal := hlMode data.assumptions,
    realHomeLoanStartMonth := realHomeLoanStartMonthOf data,
    hlRate := data.assumptions.homeLoanRate,
    homeLoanEMI := homeLoanEMIOf data,
    effectivePL1Start := data.assumptions.personalLoan1StartMonth,
    personalLoan1EMI := personalLoan1EMIOf data,
    lastDemandMonth := lastDemandMonthOf data,
    possessionMonths := possessionOf data }

/-- The ledger loop runs only when `homeLoanAmount > 0` (line 258), over months
`0 .. possessionMonths` (lines 259, 271). -/
noncomputable def ledgerFinalOf (data : ScenarioInput) : LedgerState :=
  if 0 < homeLoanAmountOf data then
    ledgerLoop (ledgerParamsOf data) (ledgerLen (possessionOf data)) ledgerInit
  else ledgerInit

noncomputable def monthlyLedgerOf (data : ScenarioInput) : List LedgerRow :=
  (ledgerFinalOf data).rows

/-- `totalIDC` (lines 251, 349): the ledger's `runningTotalIDC` when the loop
ran, `0` otherwise (and `ledgerInit` carries `0`). -/
noncomputable def totalIDCOf (data : ScenarioInput) : ℝ :=
  (ledgerFinalOf data).runningTotalIDC

/-- `monthlyIDCEMI` (lines 252, 354-355). -/
noncomputable def monthlyIDCEMIOf (data : ScenarioInput) : ℝ :=
  if 0 < homeLoanAmountOf data then
    let headRelease := match (idcScheduleRawOf data).head? with
      | some s => jsOr s.releaseMonth 0
      | none => 0
    let activeIDCMonths := max 1 (idcCutoffMonthOf data - headRelease + 1)
    totalIDCOf data / activeIDCMonths
  else 0

/-- The annotated `idcSchedule` (lines 413-447): unchanged when empty,
otherwise the annotation pass with running total `0`. -/
noncomputable def idcScheduleOf (data : ScenarioInput) : List SlabRec :=
  if (idcScheduleRawOf data).isEmpty then idcScheduleRawOf data
  else idcAnnotate data.assumptions.homeLoanRate (idcCutoffMonthOf data)
    (idcScheduleRawOf data) 0

/-- The `idcReport` (lines 450-456): `grandTotalInterest` is the ledger's
`totalIDC`, not the `calculatedGrandTotal` of the annotation pass. -/
noncomputable def idcReportOf (data : ScenarioInput) : IdcReport :=
  { grandTotalInterest := totalIDCOf data,
    minMonthlyInterest := (ledgerFinalOf data).minIDCEMI,
    maxMonthlyInterest := (ledgerFinalOf data).maxIDCEMI,
    schedule := idcScheduleOf data,
    cutoffMonth := idcCutoffMonthOf data }

/-- `homeLoanPaymentsMade` and friends (lines 359-361). -/
noncomputable def homeLoanPaymentsMadeOf (data : ScenarioInput) : ℝ :=
  max 0 (totalHoldingMonthsOf data.assumptions -
    (realHomeLoanStartMonthOf data - 1))

def pl1PaymentsMadeOf (data : ScenarioInput) : ℝ :=
  max 0 (totalHoldingMonthsOf data.assumptions -
    data.assumptions.personalLoan1StartMonth)

def pl2PaymentsMadeOf (data : ScenarioInput) : ℝ :=
  max 0 (totalHoldingMonthsOf data.assumptions -
    (possessionOf data + data.assumptions.personalLoan2StartMonth))

/-- JS `monthlyLedger[totalHoldingMonths]`: the element at that index when the
index is a natural number in range, otherwise `undefined`. -/
noncomputable def jsIndexLedger (l : List LedgerRow) (i : ℝ) : Option LedgerRow :=
  (List.range l.length).findSome?
    (fun (n : ℕ) => if ((n : ℝ)) = i then l.get? n else none)

/-- `finalLedgerRow = monthlyLedger[totalHoldingMonths] || monthlyLedger[len-1]`
(line 364); a row object is always truthy. -/
noncomputable def finalLedgerRowOf (data : ScenarioInput) : Option LedgerRow :=
  match jsIndexLedger (monthlyLedgerOf data)
      (totalHoldingMonthsOf data.assumptions) with
  | some r => some r
  | none => (monthlyLedgerOf data).getLast?

/-- `homeLoanOutstanding` (line 365). -/
noncomputable def homeLoanOutstandingOf (data : ScenarioInput) : ℝ :=
  match finalLedgerRowOf data with
  | some r => r.outstandingBalance
  | none => 0

noncomputable def personalLoan1OutstandingOf (data : ScenarioInput) : ℝ :=
  if 0 < personalLoan1AmountOf data then
    calculateOutstandingAfterPayments (personalLoan1AmountOf data)
      data.assumptions.personalLoan1Rate data.assumptions.personalLoan1Term
      (pl1PaymentsMadeOf data)
  else 0

noncomputable def personalLoan2OutstandingOf (data : ScenarioInput) : ℝ :=
  if 0 < personalLoan2AmountOf data then
    calculateOutstandingAfterPayments (personalLoan2AmountOf data)
      data.assumptions.personalLoan2Rate data.assumptions.personalLoan2Term
      (pl2PaymentsMadeOf data)
  else 0

noncomputable def totalLoanOutstandingOf (data : ScenarioInput) : ℝ :=
  homeLoanOutstandingOf data + personalLoan1OutstandingOf data +
    personalLoan2OutstandingOf data

/-- `totalHLPaid_Ledger = monthlyLedger.reduce((sum, row) => sum + row.hlComponent, 0)`
(line 374). -/
noncomputable def totalHLPaidLedgerOf (data : ScenarioInput) : ℝ :=
  (monthlyLedgerOf data).foldl (fun sum row => sum + row.hlComponent) 0

noncomputable def totalEMIPaidOf (data : ScenarioInput) : ℝ :=
  totalHLPaidLedgerOf data + personalLoan1EMIOf data * pl1PaymentsMadeOf data +
    personalLoan2EMIOf data * pl2PaymentsMadeOf data

def saleValueOf (data : ScenarioInput) (targetExitPrice : ℝ) : ℝ :=
  data.selectedProperty.size * targetExitPrice

noncomputable def leftoverCashOf (data : ScenarioInput) (targetExitPrice : ℝ) : ℝ :=
  saleValueOf data targetExitPrice - totalLoanOutstandingOf data

noncomputable def trueNetProfitOf (data : ScenarioInput) (targetExitPrice : ℝ) : ℝ :=
  leftoverCashOf data targetExitPrice - totalEMIPaidOf data -
    downPaymentAmountOf data

noncomputable def totalActualInvestmentOf (data : ScenarioInput) : ℝ :=
  downPaymentAmountOf data + totalEMIPaidOf data

noncomputable def roiOf (data : ScenarioInput) (targetExitPrice : ℝ) : ℝ :=
  if 0 < totalActualInvestmentOf data then
    trueNetProfitOf data targetExitPrice / totalActualInvestmentOf data * 100
  else 0

/-- The full result record of `calculateMetricsForPrice` (lines 458-513),
without the presentation-only formatted strings. -/
structure MetricsResult where
  propertySize : ℝ
  totalCost : ℝ
  totalCashInvested : ℝ
  totalLoanOutstanding : ℝ
  homeLoanEMI : ℝ
  personalLoan1EMI : ℝ
  personalLoan2EMI : ℝ
  gstCost : ℝ
  stampDutyCost : ℝ
  homeLoanAmount : ℝ
  personalLoan1Amount : ℝ
  personalLoan2Amount : ℝ
  downPaymentAmount : ℝ
  homeLoanShare : ℝ
  personalLoan1Share : ℝ
  personalLoan2Share : ℝ
  downPaymentShare : ℝ
  totalInterestPaid : ℝ
  homeLoanInterestPaid : ℝ
  personalLoan1InterestPaid : ℝ
  personalLoan2InterestPaid : ℝ
  homeLoanEMIPaid : ℝ
  personalLoan1EMIPaid : ℝ
  personalLoan2EMIPaid : ℝ
  totalIDC : ℝ
  monthlyIDCEMI : ℝ
  idcSchedule : List SlabRec
  monthlyLedger : List LedgerRow
  idcReport : IdcReport
  minIDCEMI : ℝ
  maxIDCEMI : ℝ
  totalEMIPaid : ℝ
  saleValue : ℝ
  leftoverCash : ℝ
  netGainLoss : ℝ
  roi : ℝ
  exitPrice : ℝ
  years : ℝ
  prePossessionMonths : ℝ
  postPossessionMonths : ℝ
  prePossessionEMI : ℝ
  postPossessionEMI : ℝ
  prePossessionTotal : ℝ
  postPossessionTotal : ℝ
  possessionMonths : ℝ
  totalHoldingMonths : ℝ
  homeLoanStartMonth : ℝ
  pl1StartMonth : ℝ
  pl2StartMonth : ℝ

noncomputable def homeLoanIntOf (data : ScenarioInput) : ℝ :=
  if 0 < homeLoanAmountOf data then
    calculateTotalInterestPaid (homeLoanAmountOf data)
      data.assumptions.homeLoanRate data.assumptions.homeLoanTerm
      (homeLoanPaymentsMadeOf data)
  else 0

noncomputable def pl1IntOf (data : ScenarioInput) : ℝ :=
  if 0 < personalLoan1AmountOf data then
    calculateTotalInterestPaid (personalLoan1AmountOf data)
      data.assumptions.personalLoan1Rate data.assumptions.personalLoan1Term
      (pl1PaymentsMadeOf data)
  else 0

noncomputable def pl2IntOf (data : ScenarioInput) : ℝ :=
  if 0 < personalLoan2AmountOf data then
    calculateTotalInterestPaid (personalLoan2AmountOf data)
      data.assumptions.personalLoan2Rate data.assumptions.personalLoan2Term
      (pl2PaymentsMadeOf data)
  else 0

/-- `calculateMetricsForPrice` (src/calculator.ts, lines 133-514), assembled
from the component definitions above in source order. -/
noncomputable def calculateMetricsForPrice (data : ScenarioInput)
    (targetExitPrice : ℝ) : MetricsResult :=
  let a := data.assumptions
  let totalHoldingMonths := totalHoldingMonthsOf a
  let valYears := totalHoldingMonths / 12
  let displayYears : ℝ := ((round (valYears * 100) : ℤ) : ℝ) / 100
  let possessionMonths := possessionOf data
  let baseCost := totalCostOf data
  let stampDutyCost := baseCost * (data.stampDuty / 100)
  let gstCost := baseCost * (data.gstPercentage / 100)
  let pl1TotalPayments := max 0 (totalHoldingMonths - a.personalLoan1StartMonth)
  let pl1PrePossessionPayments :=
    max 0 (min pl1TotalPayments (possessionMonths - a.personalLoan1StartMonth))
  let pl1PostPossessionPayments :=
    max 0 (pl1TotalPayments - pl1PrePossessionPayments)
  let pl2TotalPayments :=
    max 0 (totalHoldingMonths - (possessionMonths + a.personalLoan2StartMonth))
  let pl2PrePossessionPayments := max 0 (min pl2TotalPayments
    (possessionMonths - (possessionMonths + a.personalLoan2StartMonth)))
  let pl2PostPossessionPayments :=
    max 0 (pl2TotalPayments - pl2PrePossessionPayments)
  let postPossessionMonths := max 0 (totalHoldingMonths - possessionMonths)
  { propertySize := data.selectedProperty.size
    totalCost := baseCost
    totalCashInvested := downPaymentAmountOf data + personalLoan1AmountOf data +
      personalLoan2AmountOf data
    totalLoanOutstanding := totalLoanOutstandingOf data
    homeLoanEMI := homeLoanEMIOf data
    personalLoan1EMI := personalLoan1EMIOf data
    personalLoan2EMI := personalLoan2EMIOf data
    gstCost := gstCost
    stampDutyCost := stampDutyCost
    homeLoanAmount := homeLoanAmountOf data
    personalLoan1Amount := personalLoan1AmountOf data
    personalLoan2Amount := personalLoan2AmountOf data
    downPaymentAmount := downPaymentAmountOf data
    homeLoanShare := homeLoanShareOf data
    personalLoan1Share := personalLoan1ShareOf data
    personalLoan2Share := personalLoan2ShareOf data
    downPaymentShare := downPaymentShareOf data
    totalInterestPaid := homeLoanIntOf data + pl1IntOf data + pl2IntOf data +
      totalIDCOf data
    homeLoanInterestPaid := homeLoanIntOf data
    personalLoan1InterestPaid := pl1IntOf data
    personalLoan2InterestPaid := pl2IntOf data
    homeLoanEMIPaid := totalHLPaidLedgerOf data
    personalLoan1EMIPaid := personalLoan1EMIOf data * pl1PaymentsMadeOf data
    personalLoan2EMIPaid := personalLoan2EMIOf data * pl2PaymentsMadeOf data
    totalIDC := totalIDCOf data
    monthlyIDCEMI := monthlyIDCEMIOf data
    idcSchedule := idcScheduleOf data
    monthlyLedger := monthlyLedgerOf data
    idcReport := idcReportOf data
    minIDCEMI := (ledgerFinalOf data).minIDCEMI
    maxIDCEMI := (ledgerFinalOf data).maxIDCEMI
    totalEMIPaid := totalEMIPaidOf data
    saleValue := saleValueOf data targetExitPrice
    leftoverCash := leftoverCashOf data targetExitPrice
    netGainLoss := trueNetProfitOf data targetExitPrice
    roi := roiOf data targetExitPrice
    exitPrice := targetExitPrice
    years := displayYears
    prePossessionMonths := min totalHoldingMonths possessionMonths
    postPossessionMonths := postPossessionMonths
    prePossessionEMI := personalLoan1EMIOf data + monthlyIDCEMIOf data
    postPossessionEMI := homeLoanEMIOf data + personalLoan1EMIOf data +
      personalLoan2EMIOf data
    prePossessionTotal := (ledgerFinalOf data).runningTotalOutflow
    postPossessionTotal := homeLoanEMIOf data * postPossessionMonths +
      personalLoan1EMIOf data * pl1PostPossessionPayments +
      personalLoan2EMIOf data * pl2PostPossessionPayments
    possessionMonths := possessionMonths
    totalHoldingMonths := totalHoldingMonths
    homeLoanStartMonth := realHomeLoanStartMonthOf data
    pl1StartMonth := a.personalLoan1StartMonth
    pl2StartMonth := possessionMonths + a.personalLoan2StartMonth }

/-- One entry of `multipleScenarios` (src/calculator.ts, lines 525-535). -/
structure ScenarioSummary where
  exitPrice : ℝ
  saleValue : ℝ
  netProfit : ℝ
  roi : ℝ
  leftoverCash : ℝ
  isSelected : Bool

/-- One entry of `profits` (lines 537-541). -/
structure ProfitRow where
  exitPrice : ℝ
  netProfit : ℝ
  roi : ℝ

/-- The result of `calculateFinancials` (lines 544-587) minus the
presentation-only `stageCalculations` block of pre-formatted label/value
strings, which no numeric field depends on. -/
structure FinancialsResult where
  detailedBreakdown : MetricsResult
  multipleScenarios : List ScenarioSummary
  profits : List ProfitRow

/-- One insertion into a JS `Set`: appended only when not already present. -/
noncomputable def dedupStep (acc : List ℝ) (x : ℝ) : List ℝ :=
  if x ∈ acc then acc else acc ++ [x]

/-- `Array.from(new Set(list))`: deduplication keeping first occurrences, in
insertion order. -/
noncomputable def setDedup (l : List ℝ) : List ℝ :=
  l.foldl dedupStep []

/-- `.sort((a, b) => a - b)`: ascending numeric sort. -/
noncomputable def sortAsc (l : List ℝ) : List ℝ :=
  l.mergeSort (fun a b => decide (a ≤ b))

/-- `allPrices` (lines 520-523). -/
noncomputable def allPricesOf (data : ScenarioInput) : List ℝ :=
  sortAsc (setDedup (data.selectedExitPrice :: data.scenarioExitPrices))

/-- `calculateFinancials` (src/calculator.ts, lines 517-588). -/
noncomputable def calculateFinancials (data : ScenarioInput) : FinancialsResult :=
  let detailedBreakdown := calculateMetricsForPrice data data.selectedExitPrice
  let multipleScenarios := (allPricesOf data).map (fun price =>
    let result := calculateMetricsForPrice data price
    { exitPrice := price, saleValue := result.saleValue,
      netProfit := result.netGainLoss, roi := result.roi,
      leftoverCash := result.leftoverCash,
      isSelected := if price = data.selectedExitPrice then true else false
      : ScenarioSummary })
  let profits := multipleScenarios.map (fun s =>
    { exitPrice := s.exitPrice, netProfit := s.netProfit, roi := s.roi
      : ProfitRow })
  { detailedBreakdown := detailedBreakdown,
    multipleScenarios := multipleScenarios, profits := profits }

/-- Proof-auxiliary description of the ledger state: the total amount of the
schedule entries whose release month is one of the already-processed ledger
months `0, …, m-1` (exact `===` matching, as in the source's `find`). -/
noncomputable def castRange (m : ℕ) : List ℝ := (List.range m).map (fun j => (j : ℝ))

/-- Total amount disbursed by the ledger strictly before month `m`. -/
noncomputable def disbursedBy (sched : List SlabRec) (m : ℕ) : ℝ :=
  ((sched.filter (fun s => decide (s.releaseMonth ∈ castRange m))).map
    (fun s => s.amount)).sum

/-- All-zero assumptions record, the base for the concrete test scenarios. -/
def baseAssumptions : Assumptions :=
  { homeLoanRate := 0, homeLoanTerm := 0, homeLoanShare := 0,
    homeLoanStartMonth := 0, homeLoanStartMode := "",
    personalLoan1Rate := 0, personalLoan1Term := 0, personalLoan1StartMonth := 0,
    personalLoan1Share := 0, personalLoan2Rate := 0, personalLoan2Term := 0,
    personalLoan2StartMonth := 0, personalLoan2Share := 0, downPaymentShare := 0,
    investmentPeriod := 0, clpDurationYears := 0, bankDisbursementStartMonth := 0,
    bankDisbursementInterval := 0, lastBankDisbursementMonth := 0,
    holdingPeriodUnit := "" }

/-- A test property of size `10` with a given possession month. -/
def stdProperty (poss : ℝ) : PropertyInput :=
  { id := 1, name := "A", location := "L", size := 10, possessionMonths := poss }

/-- A scenario with purchase price `0`: every loan amount is `0`. -/
def zeroLoanData : ScenarioInput :=
  { purchasePrice := 0, otherCharges := 0, stampDuty := 0, gstPercentage := 0,
    paymentPlan := "clp", assumptions := baseAssumptions,
    selectedProperty := stdProperty 5,
    selectedExitPrice := 12, scenarioExitPrices := [] }

/-- Assumptions of `manualModeData`. -/
def manualModeAssumptions : Assumptions :=
  { baseAssumptions with
    homeLoanRate := 15
    homeLoanStartMode := "manual"
    homeLoanStartMonth := 13
    bankDisbursementStartMonth := 9
    bankDisbursementInterval := 3
    lastBankDisbursementMonth := 4 }

/-- A manual-start-mode scenario whose only slab is the fallback slab
(disbursement start month `9` after the funding end `4`). -/
def manualModeData : ScenarioInput :=
  { purchasePrice := 10, otherCharges := 0, stampDuty := 0, gstPercentage := 0,
    paymentPlan := "clp", assumptions := manualModeAssumptions,
    selectedProperty := stdProperty 2,
    selectedExitPrice := 12, scenarioExitPrices := [] }

/-- Assumptions of `defaultModeData`. -/
def defaultModeAssumptions : Assumptions :=
  { baseAssumptions with
    homeLoanRate := 12
    bankDisbursementStartMonth := 1
    bankDisbursementInterval := 3
    lastBankDisbursementMonth := 4 }

/-- A default-start-mode scenario (funding end `4`, cutoff `4`,
possession `6`). -/
def defaultModeData : ScenarioInput :=
  { purchasePrice := 10, otherCharges := 0, stampDuty := 0, gstPercentage := 0,
    paymentPlan := "clp", assumptions := defaultModeAssumptions,
    selectedProperty := stdProperty 6,
    selectedExitPrice := 12, scenarioExitPrices := [] }

/-- Assumptions of `oneMonthData`. -/
def oneMonthAssumptions : Assumptions :=
  { baseAssumptions with
    homeLoanRate := 12
    bankDisbursementStartMonth := 9
    bankDisbursementInterval := 3
    lastBankDisbursementMonth := 4 }

/-- A default-start-mode scenario with possession month `0`: its ledger has a
single row (month `0`), and its only slab is the fallback slab at month `9`. -/
def oneMonthData : ScenarioInput :=
  { purchasePrice := 10, otherCharges := 0, stampDuty := 0, gstPercentage := 0,
    paymentPlan := "clp", assumptions := oneMonthAssumptions,
    selectedProperty := stdProperty 0,
    selectedExitPrice := 12, scenarioExitPrices := [] }

/-- The single ledger row of `oneMonthData` (month `0`, nothing disbursed). -/
def oneMonthRow : LedgerRow :=
  { month := 0, disbursement := 0, activeSlabs := ActiveSlabsCell.count 0,
    cumulativeDisbursement := 0, outstandingBalance := 0, hlComponent := 0,
    interestPart := 0, principalPart := 0, isFullEMI := false, pl1 := 0,
    totalOutflow := 0 }

/-- The same scenario with only the ancillary-charge fields `otherCharges`,
`stampDuty` and `gstPercentage` replaced. -/
def withAncillary (data : ScenarioInput) (oc sd g : ℝ) : ScenarioInput :=
  { data with
    otherCharges := oc
    stampDuty := sd
    gstPercentage := g }

end

/-! ### Theorems -/

/-- `(-2)^12` as a real power. -/
lemma neg_two_rpow_twelve : ((-2 : ℝ) ^ (12 : ℝ)) = 4096 := by
  rw [show (12 : ℝ) = ((12 : ℕ) : ℝ) by norm_num, Real.rpow_natCast]
  norm_num

/-- Claim C2 (amended): the funding end month is the explicit last-disbursement
month when positive, else the construction-duration end when positive, else the
possession month when the latter is nonzero, else the default `24`. -/
theorem fundingEnd_priority (a : Assumptions) (possessionMonths : ℝ) :
    lastDemandMonth a possessionMonths =
      if 0 < a.lastBankDisbursementMonth then a.lastBankDisbursementMonth
      else if 0 < a.clpDurationYears * 12 then a.clpDurationYears * 12
      else if possessionMonths = 0 then 24 else possessionMonths := by
  simp only [lastDemandMonth, jsOr]

/-- Claim C2 counterexample: with no explicit last-disbursement month, no
construction duration and possession month `0`, the funding end is `24`, not
the possession month `0`. -/
theorem fundingEnd_possession_zero_cex :
    lastDemandMonth baseAssumptions 0 = 24 ∧ (24 : ℝ) ≠ 0 := by
  constructor
  · simp [lastDemandMonth, jsOr, baseAssumptions]
  · norm_num

/-- Claim C8 counterexample: a negative principal passes the `!principal` guard
and yields a negative EMI (refuting both `principal ≤ 0 → emi = 0` and
`0 ≤ emi`), and a negative rate yields a negative EMI even for a positive
principal. -/
theorem calculateEMI_cex :
    calculateEMI (-12) 0 1 < 0 ∧ calculateEMI 100 (-3600) 1 < 0 := by
  constructor
  · simp only [calculateEMI]
    norm_num
  · simp only [calculateEMI]
    norm_num [neg_two_rpow_twelve]

/-- Claim C8 (amended): `calculateEMI` returns `0` whenever the principal is
exactly `0` or the term is nonpositive; for nonnegative principal and rate the
result is nonnegative; and at rate `0` with positive principal and term it is
the straight-line division `principal / (term * 12)`. -/
theorem calculateEMI_spec (p r t : ℝ) (hp : 0 ≤ p) (hr : 0 ≤ r) :
    ((p = 0 ∨ t ≤ 0) → calculateEMI p r t = 0) ∧
    0 ≤ calculateEMI p r t ∧
    (0 < p → 0 < t → calculateEMI p 0 t = p / (t * 12)) := by
  refine ⟨?_, ?_, ?_⟩
  · rintro (hp0 | ht0)
    · simp [calculateEMI, hp0]
    · by_cases hp0 : p = 0
      · simp [calculateEMI, hp0]
      · simp [calculateEMI, hp0, ht0]
  · simp only [calculateEMI]
    split_ifs with h1 h2 h3
    · exact le_rfl
    · exact le_rfl
    · have ht : 0 < t := lt_of_not_le h2
      positivity
    · have hrpos : 0 < r := lt_of_le_of_ne hr (Ne.symm h3)
      have ht : 0 < t := lt_of_not_le h2
      have hB : 1 < 1 + r / (12 * 100) := by nlinarith
      have hX : 1 < (1 + r / (12 * 100)) ^ (t * 12) := by
        rw [Real.one_lt_rpow_iff_of_pos (by linarith)]
        exact Or.inl ⟨hB, by linarith⟩
      have hnum : 0 ≤ p * (r / (12 * 100)) * (1 + r / (12 * 100)) ^ (t * 12) := by
        have hXpos : (0 : ℝ) ≤ (1 + r / (12 * 100)) ^ (t * 12) := by linarith
        have : 0 ≤ p * (r / (12 * 100)) := by positivity
        exact mul_nonneg this hXpos
      exact div_nonneg hnum (by linarith)
  · intro hp0 ht0
    simp [calculateEMI, hp0.ne', not_le.2 ht0]

/-- Witness for claim C8 at `principal = 100`, `rate = 10`, `term = 2`. -/
theorem calculateEMI_spec_witness :
    (((100 : ℝ) = 0 ∨ (2 : ℝ) ≤ 0) → calculateEMI 100 10 2 = 0) ∧
    0 ≤ calculateEMI 100 10 2 ∧
    (0 < (100 : ℝ) → 0 < (2 : ℝ) → calculateEMI 100 0 2 = 100 / (2 * 12)) :=
  calculateEMI_spec 100 10 2 (by norm_num) (by norm_num)

/-- Payments `≤ 0` leave the principal untouched (after the zero-principal
guard). -/
lemma calcOut_of_nonpos (p r t k : ℝ) (hk : k ≤ 0) :
    calculateOutstandingAfterPayments p r t k = if p = 0 then 0 else p := by
  by_cases hp : p = 0
  · simp [calculateOutstandingAfterPayments, hp]
  · simp [calculateOutstandingAfterPayments, hp, hk]

/-- Payments at or beyond the full term give outstanding `0`. -/
lemma calcOut_of_ge (p r t k : ℝ) (hk0 : 0 < k) (hk : t * 12 ≤ k) :
    calculateOutstandingAfterPayments p r t k = 0 := by
  by_cases hp : p = 0
  · simp [calculateOutstandingAfterPayments, hp]
  · simp [calculateOutstandingAfterPayments, hp, hk0.not_le, hk]

/-- The middle branch at a nonzero rate. -/
lemma calcOut_mid (p r t k : ℝ) (hp : p ≠ 0) (hk : 0 < k) (hkt : k < t * 12)
    (hr : r ≠ 0) :
    calculateOutstandingAfterPayments p r t k =
      max 0 (p * ((1 + r / (12 * 100)) ^ (t * 12) - (1 + r / (12 * 100)) ^ k) /
        ((1 + r / (12 * 100)) ^ (t * 12) - 1)) := by
  simp only [calculateOutstandingAfterPayments]
  rw [if_neg hp, if_neg (not_le.2 hk), if_neg (not_le.2 hkt), if_neg hr]

/-- The middle branch at rate `0`: linear amortisation. -/
lemma calcOut_mid_zero_rate (p t k : ℝ) (hp : p ≠ 0) (hk : 0 < k)
    (hkt : k < t * 12) :
    calculateOutstandingAfterPayments p 0 t k = max 0 (p - p / (t * 12) * k) := by
  simp only [calculateOutstandingAfterPayments]
  rw [if_neg hp, if_neg (not_le.2 hk), if_neg (not_le.2 hkt)]
  simp

/-- The outstanding balance is never negative (for nonnegative principal). -/
lemma calcOut_nonneg (p r t k : ℝ) (hp : 0 ≤ p) :
    0 ≤ calculateOutstandingAfterPayments p r t k := by
  simp only [calculateOutstandingAfterPayments]
  split_ifs
  · exact le_rfl
  · exact hp
  · exact le_rfl
  · exact le_max_left 0 _
  · exact le_max_left 0 _

/-- The outstanding balance never exceeds the principal (for positive
principal, nonnegative rate, positive term). -/
lemma calcOut_le_principal (p r t : ℝ) (hp : 0 < p) (hr : 0 ≤ r) (ht : 0 < t)
    (k : ℝ) :
    calculateOutstandingAfterPayments p r t k ≤ p := by
  simp only [calculateOutstandingAfterPayments]
  split_ifs with h1 h2 h3 h4
  · exact hp.le
  · exact le_rfl
  · exact hp.le
  · have hk : 0 < k := lt_of_not_le h2
    refine max_le hp.le ?_
    have : 0 ≤ p / (t * 12) * k :=
      mul_nonneg (div_nonneg hp.le (by linarith)) hk.le
    linarith
  · have hk : 0 < k := lt_of_not_le h2
    have hrpos : 0 < r := lt_of_le_of_ne hr (Ne.symm h4)
    have hB : 1 < 1 + r / (12 * 100) := by nlinarith
    have hX : 1 < (1 + r / (12 * 100)) ^ (t * 12) := by
      rw [Real.one_lt_rpow_iff_of_pos (by linarith)]
      exact Or.inl ⟨hB, by linarith⟩
    have hY : 1 ≤ (1 + r / (12 * 100)) ^ k := by
      calc (1 : ℝ) = (1 + r / (12 * 100)) ^ (0 : ℝ) := (Real.rpow_zero _).symm
        _ ≤ (1 + r / (12 * 100)) ^ k :=
          Real.rpow_le_rpow_of_exponent_le hB.le hk.le
    refine max_le hp.le ?_
    rw [div_le_iff₀ (by linarith)]
    have : (1 + r / (12 * 100)) ^ (t * 12) - (1 + r / (12 * 100)) ^ k ≤
        (1 + r / (12 * 100)) ^ (t * 12) - 1 := by linarith
    exact mul_le_mul_of_nonneg_left this hp.le

/-- Claim C9 counterexample: at term `0` the `paymentsMade ≤ 0` branch returns
the principal, so `f(p,r,0,0·12) = 100 ≠ 0`; the result is not non-increasing
in `paymentsMade` for a negative principal, nor for a negative rate. -/
theorem calculateOutstanding_cex :
    calculateOutstandingAfterPayments 100 10 0 (0 * 12) = 100 ∧
    calculateOutstandingAfterPayments (-100) 0 1 0 <
      calculateOutstandingAfterPayments (-100) 0 1 12 ∧
    calculateOutstandingAfterPayments 100 (-3600) 1 0 <
      calculateOutstandingAfterPayments 100 (-3600) 1 1 := by
  refine ⟨?_, ?_, ?_⟩
  · simp [calculateOutstandingAfterPayments]
  · rw [calcOut_of_nonpos _ _ _ _ le_rfl, calcOut_of_ge _ _ _ _ (by norm_num)
      (by norm_num)]
    norm_num
  · rw [calcOut_of_nonpos _ _ _ _ le_rfl,
      calcOut_mid 100 (-3600) 1 1 (by norm_num) (by norm_num) (by norm_num)
        (by norm_num)]
    rw [if_neg (by norm_num : ¬(100 : ℝ) = 0)]
    refine lt_max_iff.mpr (Or.inr ?_)
    norm_num [neg_two_rpow_twelve, Real.rpow_one]

/-- Claim C9 (amended): for nonnegative principal and rate and a positive term,
`calculateOutstandingAfterPayments` returns the principal at `0` payments,
returns `0` at `term·12` payments, and is non-increasing in `paymentsMade`. -/
theorem calculateOutstanding_spec (p r t k1 k2 : ℝ)
    (hp : 0 ≤ p) (hr : 0 ≤ r) (ht : 0 < t) (hk : k1 ≤ k2) :
    calculateOutstandingAfterPayments p r t 0 = p ∧
    calculateOutstandingAfterPayments p r t (t * 12) = 0 ∧
    calculateOutstandingAfterPayments p r t k2 ≤
      calculateOutstandingAfterPayments p r t k1 := by
  refine ⟨?_, ?_, ?_⟩
  · rw [calcOut_of_nonpos _ _ _ _ le_rfl]
    split_ifs with h
    · exact h.symm
    · rfl
  · exact calcOut_of_ge _ _ _ _ (by linarith) le_rfl
  · by_cases hp0 : p = 0
    · simp [calculateOutstandingAfterPayments, hp0]
    have hppos : 0 < p := lt_of_le_of_ne hp (Ne.symm hp0)
    rcases le_or_lt k2 0 with h2 | h2
    · rw [calcOut_of_nonpos _ _ _ _ h2, calcOut_of_nonpos _ _ _ _ (hk.trans h2)]
    · rcases le_or_lt k1 0 with h1 | h1
      · rw [calcOut_of_nonpos _ _ _ _ h1, if_neg hp0]
        exact calcOut_le_principal p r t hppos hr ht k2
      · rcases le_or_lt (t * 12) k1 with hb1 | hb1
        · rw [calcOut_of_ge _ _ _ _ h1 hb1,
            calcOut_of_ge _ _ _ _ h2 (hb1.trans hk)]
        · rcases le_or_lt (t * 12) k2 with hb2 | hb2
          · rw [calcOut_of_ge _ _ _ _ h2 hb2]
            exact calcOut_nonneg _ _ _ _ hp
          · by_cases hr0 : r = 0
            · subst hr0
              rw [calcOut_mid_zero_rate p t k1 hp0 h1 hb1,
                calcOut_mid_zero_rate p t k2 hp0 h2 hb2]
              refine max_le_max le_rfl ?_
              have : p / (t * 12) * k1 ≤ p / (t * 12) * k2 :=
                mul_le_mul_of_nonneg_left hk (div_nonneg hp (by linarith))
              linarith
            · have hrpos : 0 < r := lt_of_le_of_ne hr (Ne.symm hr0)
              rw [calcOut_mid p r t k1 hp0 h1 hb1 hr0,
                calcOut_mid p r t k2 hp0 h2 hb2 hr0]
              have hB : 1 < 1 + r / (12 * 100) := by nlinarith
              have hX : 1 < (1 + r / (12 * 100)) ^ (t * 12) := by
                rw [Real.one_lt_rpow_iff_of_pos (by linarith)]
                exact Or.inl ⟨hB, by linarith⟩
              have hY : (1 + r / (12 * 100)) ^ k1 ≤ (1 + r / (12 * 100)) ^ k2 :=
                Real.rpow_le_rpow_of_exponent_le hB.le hk
              refine max_le_max le_rfl ?_
              rw [div_le_div_iff_of_pos_right (by linarith)]
              exact mul_le_mul_of_nonneg_left (by linarith) hp

/-- Witness for claim C9 at `p = 100`, `r = 10`, `t = 1`, payments `3 ≤ 5`. -/
theorem calculateOutstanding_spec_witness :
    calculateOutstandingAfterPayments 100 10 1 0 = 100 ∧
    calculateOutstandingAfterPayments 100 10 1 (1 * 12) = 0 ∧
    calculateOutstandingAfterPayments 100 10 1 5 ≤
      calculateOutstandingAfterPayments 100 10 1 3 :=
  calculateOutstanding_spec 100 10 1 3 5 (by norm_num) (by norm_num)
    (by norm_num) (by norm_num)

/-! ### Disbursement-scheduler lemmas -/

/-- The loop returns its accumulator once the month counter has passed the
funding end. -/
lemma disburseLoop_exit_month (e i a : ℝ) (fuel : ℕ) (hf : 1 ≤ fuel)
    (m r : ℝ) (acc : List SlabRec) (hm : e < m) :
    disburseLoop e i a fuel m r acc = acc := by
  cases fuel with
  | zero => omega
  | succ n => simp [disburseLoop, hm.not_le]

/-- The loop breaks, returning its accumulator, when at most `1` remains. -/
lemma disburseLoop_exit_rem (e i a : ℝ) (fuel : ℕ) (hf : 1 ≤ fuel)
    (m r : ℝ) (acc : List SlabRec) (hr : r ≤ 1) :
    disburseLoop e i a fuel m r acc = acc := by
  cases fuel with
  | zero => omega
  | succ n =>
    simp only [disburseLoop]
    by_cases h1 : m ≤ e
    · rw [if_pos h1, if_pos hr]
    · rw [if_neg h1]

/-- Stepping the month by the interval lowers the iteration budget by one. -/
lemma disburseLoop_fuel_step (e i m : ℝ) (hi : 0 < i) (hm : m + i ≤ e)
    (fuel : ℕ) (hf : (⌈(e - m) / i⌉).toNat + 2 ≤ fuel + 1) :
    (⌈(e - (m + i)) / i⌉).toNat + 2 ≤ fuel := by
  have h1 : (e - (m + i)) / i = (e - m) / i - 1 := by
    field_simp
    ring
  have h2 : (1 : ℝ) ≤ (e - m) / i := (one_le_div hi).2 (by linarith)
  have h3 : (1 : ℤ) ≤ ⌈(e - m) / i⌉ := by
    have := Int.le_ceil ((e - m) / i)
    exact_mod_cast h2.trans this
  have h4 : ⌈(e - (m + i)) / i⌉ = ⌈(e - m) / i⌉ - 1 := by
    rw [h1, Int.ceil_sub_one]
  rw [h4]
  omega

/-- Core sum invariant of the disbursement loop: with a positive interval,
starting within the funding window with more than `1` remaining, the produced
slabs absorb exactly the remaining amount. -/
lemma disburseLoop_sum (e i a : ℝ) (hi : 0 < i) :
    ∀ fuel : ℕ, ∀ m r : ℝ, ∀ acc : List SlabRec,
      (⌈(e - m) / i⌉).toNat + 2 ≤ fuel → m ≤ e → 1 < r →
      ((disburseLoop e i a fuel m r acc).map (fun s => s.amount)).sum
        = ((acc.map (fun s => s.amount)).sum) + r := by
  intro fuel
  induction fuel with
  | zero => intro m r acc hf _ _; omega
  | succ n ih =>
    intro m r acc hf hm hr
    have hn : 1 ≤ n := by omega
    simp only [disburseLoop]
    rw [if_pos hm, if_neg (not_le.2 hr)]
    by_cases habs : e < m + i ∨ r - a < 10
    · simp only [habs, if_true]
      rw [disburseLoop_exit_rem e i a n hn (m + i) (r - r)
        (acc ++ [mkSlab (acc.length + 1) m r]) (by simp)]
      simp [mkSlab]
    · simp only [habs, if_false]
      push_neg at habs
      obtain ⟨hmi, hra⟩ := habs
      rw [ih (m + i) (r - a) (acc ++ [mkSlab (acc.length + 1) m a])
        (disburseLoop_fuel_step e i m hi hmi n hf) hmi (by linarith)]
      simp [mkSlab]

/-- Core count invariant of the disbursement loop: with a positive interval and
slab amount at least `10`, starting with remaining `j · slabAmount` and `j`
scheduled release months left, exactly `j` slabs are produced. -/
lemma disburseLoop_length (e i a : ℝ) (hi : 0 < i) (ha : 10 ≤ a) :
    ∀ fuel : ℕ, ∀ (j : ℕ) (m r : ℝ) (acc : List SlabRec),
      (⌈(e - m) / i⌉).toNat + 2 ≤ fuel → m ≤ e →
      r = (j : ℝ) * a → ⌊(e - m) / i⌋ + 1 = (j : ℤ) → 1 ≤ j →
      (disburseLoop e i a fuel m r acc).length = acc.length + j := by
  intro fuel
  induction fuel with
  | zero => intro j m r acc hf _ _ _ _; omega
  | succ n ih =>
    intro j m r acc hf hm hrj hfl hj
    have hn : 1 ≤ n := by omega
    have hj1 : (1 : ℝ) ≤ (j : ℝ) := by exact_mod_cast hj
    have hr1 : 1 < r := by rw [hrj]; nlinarith
    simp only [disburseLoop]
    rw [if_pos hm, if_neg (not_le.2 hr1)]
    by_cases hlast : ⌊(e - m) / i⌋ = 0
    · have hjone : j = 1 := by omega
      have hdivlt : (e - m) / i < 1 := by
        have h := Int.lt_floor_add_one ((e - m) / i)
        rw [hlast] at h
        simpa using h
      have habs : e < m + i ∨ r - a < 10 := by
        left
        rw [div_lt_one hi] at hdivlt
        linarith
      simp only [habs, if_true]
      rw [disburseLoop_exit_rem e i a n hn (m + i) (r - r)
        (acc ++ [mkSlab (acc.length + 1) m r]) (by simp)]
      simp [hjone]
    · have hfl0 : 0 ≤ ⌊(e - m) / i⌋ :=
        Int.floor_nonneg.2 (div_nonneg (by linarith) hi.le)
      have hfl1 : 1 ≤ ⌊(e - m) / i⌋ := by omega
      have hone : (1 : ℝ) ≤ (e - m) / i := by
        have := Int.floor_le ((e - m) / i)
        have h1 : ((1 : ℤ) : ℝ) ≤ (⌊(e - m) / i⌋ : ℝ) := by exact_mod_cast hfl1
        simpa using h1.trans this
      have hmi : m + i ≤ e := by
        rw [one_le_div hi] at hone
        linarith
      have hj2 : 2 ≤ j := by omega
      have hj2R : (2 : ℝ) ≤ (j : ℝ) := by exact_mod_cast hj2
      have hnabs : ¬(e < m + i ∨ r - a < 10) := by
        push_neg
        exact ⟨by linarith, by nlinarith⟩
      simp only [hnabs, if_false]
      have hstep : (e - (m + i)) / i = (e - m) / i - 1 := by
        field_simp
        ring
      rw [ih (j - 1) (m + i) (r - a) (acc ++ [mkSlab (acc.length + 1) m a])
        (disburseLoop_fuel_step e i m hi hmi n hf) hmi ?_ ?_ (by omega)]
      · simp
        omega
      · rw [hrj]
        have : ((j - 1 : ℕ) : ℝ) = (j : ℝ) - 1 := by
          have : (1 : ℕ) ≤ j := hj
          push_cast [Nat.cast_sub this]
          ring
        rw [this]
        ring
      · rw [hstep, show (1 : ℝ) = ((1 : ℤ) : ℝ) by norm_num, Int.floor_sub_int]
        push_cast [Nat.cast_sub hj]
        omega

/-- Claim C4: with a positive home-loan amount, a positive interval and a
funding end at or after the start month, the slab amounts produced by the
disbursement scheduler sum exactly to the home-loan amount. -/
theorem slabs_sum_to_loan (L s i e : ℝ) (hL : 0 < L) (hi : 0 < i)
    (hse : s ≤ e) :
    ((buildSchedule L s i e).map (fun sl => sl.amount)).sum = L := by
  simp only [buildSchedule, if_pos hL]
  by_cases hL1 : L ≤ 1
  · rw [disburseLoop_exit_rem e i _ _ (by omega) s L [] hL1]
    simp [mkSlab]
  · have hlt : 1 < L := lt_of_not_le hL1
    have hsum := disburseLoop_sum e i
      (L / ((max 1 (⌊(e - s) / i⌋ + 1) : ℤ) : ℝ)) hi
      ((⌈(e - s) / i⌉).toNat + 2) s L [] le_rfl hse hlt
    by_cases hD : disburseLoop e i
        (L / ((max 1 (⌊(e - s) / i⌋ + 1) : ℤ) : ℝ))
        ((⌈(e - s) / i⌉).toNat + 2) s L [] = []
    · rw [hD] at hsum
      simp at hsum
      linarith
    · rw [if_neg (by simpa using hD)]
      simpa using hsum

/-- Witness for claim C4: loan `100`, start `0`, interval `3`, end `7`. -/
theorem slabs_sum_to_loan_witness :
    ((buildSchedule 100 0 3 7).map (fun sl => sl.amount)).sum = 100 :=
  slabs_sum_to_loan 100 0 3 7 (by norm_num) (by norm_num) (by norm_num)

/-- Claim C3 counterexample: with home-loan amount `1/2 > 0`, start `0`,
interval `1 > 0`, funding end `10 ≥ 0`, the claimed count is
`max(1, ⌊10/1⌋ + 1) = 11`, but the loop breaks immediately (`remaining ≤ 1`)
and the fallback emits a single slab. -/
theorem slab_count_cex :
    (0 : ℝ) < 1 / 2 ∧ (0 : ℝ) < 1 ∧ (0 : ℝ) ≤ 10 ∧
    (max 1 (⌊((10 : ℝ) - 0) / 1⌋ + 1) : ℤ) = 11 ∧
    (buildSchedule (1 / 2) 0 1 10).length = 1 := by
  refine ⟨by norm_num, by norm_num, by norm_num, by norm_num, ?_⟩
  simp only [buildSchedule, if_pos (by norm_num : (0 : ℝ) < 1 / 2)]
  rw [disburseLoop_exit_rem 10 1 _ _ (by omega) 0 (1 / 2) [] (by norm_num)]
  simp

/-- Claim C3 (amended): when additionally each equal slab share is at least
`10` (`10 · numberOfSlabs ≤ homeLoanAmount`), the number of slabs equals
`max(1, ⌊(fundingEnd − start)/interval⌋ + 1)`. -/
theorem slab_count (L s i e : ℝ) (hL : 0 < L) (hi : 0 < i) (hse : s ≤ e)
    (hbig : 10 * ((max 1 (⌊(e - s) / i⌋ + 1) : ℤ) : ℝ) ≤ L) :
    ((buildSchedule L s i e).length : ℤ) = max 1 (⌊(e - s) / i⌋ + 1) := by
  have hfl0 : 0 ≤ ⌊(e - s) / i⌋ :=
    Int.floor_nonneg.2 (div_nonneg (by linarith) hi.le)
  have hN1 : (1 : ℤ) ≤ max 1 (⌊(e - s) / i⌋ + 1) := le_max_left _ _
  have hNR : (0 : ℝ) < ((max 1 (⌊(e - s) / i⌋ + 1) : ℤ) : ℝ) := by
    have : (0 : ℤ) < max 1 (⌊(e - s) / i⌋ + 1) := lt_of_lt_of_le one_pos hN1
    exact_mod_cast this
  have hA10 : 10 ≤ L / ((max 1 (⌊(e - s) / i⌋ + 1) : ℤ) : ℝ) :=
    (le_div_iff₀ hNR).2 hbig
  have hcast : (((max 1 (⌊(e - s) / i⌋ + 1) : ℤ).toNat : ℕ) : ℝ)
      = ((max 1 (⌊(e - s) / i⌋ + 1) : ℤ) : ℝ) := by
    have h0 : (0 : ℤ) ≤ max 1 (⌊(e - s) / i⌋ + 1) := le_trans zero_le_one hN1
    exact_mod_cast congrArg (fun z : ℤ => (z : ℝ)) (Int.toNat_of_nonneg h0)
  have hr : L = (((max 1 (⌊(e - s) / i⌋ + 1) : ℤ).toNat : ℕ) : ℝ) *
      (L / ((max 1 (⌊(e - s) / i⌋ + 1) : ℤ) : ℝ)) := by
    rw [hcast]
    field_simp
  have hmax : max 1 (⌊(e - s) / i⌋ + 1) = ⌊(e - s) / i⌋ + 1 :=
    max_eq_right (by omega)
  have hlen := disburseLoop_length e i
    (L / ((max 1 (⌊(e - s) / i⌋ + 1) : ℤ) : ℝ)) hi hA10
    ((⌈(e - s) / i⌉).toNat + 2) (max 1 (⌊(e - s) / i⌋ + 1)).toNat s L []
    le_rfl hse hr (by omega) (by omega)
  simp only [buildSchedule, if_pos hL]
  by_cases hD : disburseLoop e i
      (L / ((max 1 (⌊(e - s) / i⌋ + 1) : ℤ) : ℝ))
      ((⌈(e - s) / i⌉).toNat + 2) s L [] = []
  · rw [hD] at hlen
    simp at hlen
    omega
  · rw [if_neg (by simpa using hD)]
    rw [hlen]
    simp

/-- Witness for claim C3: loan `1100`, start `0`, interval `1`, end `10`
(`11` slabs of `100`). -/
theorem slab_count_witness :
    ((buildSchedule 1100 0 1 10).length : ℤ) = max 1 (⌊((10 : ℝ) - 0) / 1⌋ + 1) :=
  slab_count 1100 0 1 10 (by norm_num) (by norm_num) (by norm_num)
    (by norm_num)

/-! ### Multi-scenario sweep lemmas -/

lemma dedupStep_nodup (acc : List ℝ) (x : ℝ) (h : acc.Nodup) :
    (dedupStep acc x).Nodup := by
  unfold dedupStep
  split_ifs with hx
  · exact h
  · refine List.Nodup.append h (List.nodup_singleton x) ?_
    intro a ha hax
    rw [List.mem_singleton] at hax
    exact hx (hax ▸ ha)

lemma mem_dedupStep (acc : List ℝ) (x a : ℝ) :
    a ∈ dedupStep acc x ↔ a ∈ acc ∨ a = x := by
  unfold dedupStep
  split_ifs with hx
  · constructor
    · exact Or.inl
    · rintro (h | rfl)
      · exact h
      · exact hx
  · simp

lemma setDedup_go_nodup (l : List ℝ) :
    ∀ acc : List ℝ, acc.Nodup → (l.foldl dedupStep acc).Nodup := by
  induction l with
  | nil => intro acc h; exact h
  | cons x xs ih => intro acc h; exact ih _ (dedupStep_nodup acc x h)

lemma mem_setDedup_go (l : List ℝ) :
    ∀ (acc : List ℝ) (a : ℝ), a ∈ l.foldl dedupStep acc ↔ a ∈ acc ∨ a ∈ l := by
  induction l with
  | nil => intro acc a; simp
  | cons x xs ih =>
    intro acc a
    rw [List.foldl_cons, ih, mem_dedupStep]
    simp only [List.mem_cons]
    tauto

lemma setDedup_nodup (l : List ℝ) : (setDedup l).Nodup :=
  setDedup_go_nodup l [] List.nodup_nil

lemma mem_setDedup (l : List ℝ) (a : ℝ) : a ∈ setDedup l ↔ a ∈ l := by
  unfold setDedup
  rw [mem_setDedup_go]
  simp

lemma sortAsc_perm (l : List ℝ) : (sortAsc l).Perm l :=
  List.mergeSort_perm l _

lemma sortAsc_sorted (l : List ℝ) : (sortAsc l).Pairwise (· ≤ ·) := by
  have htrans : ∀ a b c : ℝ, (decide (a ≤ b)) = true → (decide (b ≤ c)) = true →
      (decide (a ≤ c)) = true := by
    intro a b c hab hbc
    simp only [decide_eq_true_eq] at *
    exact le_trans hab hbc
  have htotal : ∀ a b : ℝ, ((decide (a ≤ b)) || (decide (b ≤ a))) = true := by
    intro a b
    simpa [Bool.or_eq_true, decide_eq_true_eq] using le_total a b
  have h := @List.sorted_mergeSort ℝ (fun a b : ℝ => decide (a ≤ b))
    htrans htotal l
  refine h.imp ?_
  intro a b hab
  simpa using hab

/-- Filtering a duplicate-free list for one of its members yields exactly that
member. -/
lemma nodup_filter_eq_singleton (l : List ℝ) :
    l.Nodup → ∀ a ∈ l, l.filter (fun x => decide (x = a)) = [a] := by
  induction l with
  | nil => simp
  | cons b t ih =>
    intro hnd a ha
    rw [List.nodup_cons] at hnd
    rcases List.mem_cons.1 ha with rfl | hat
    · rw [List.filter_cons_of_pos (by simp)]
      have ht : t.filter (fun x => decide (x = a)) = [] := by
        rw [List.filter_eq_nil_iff]
        intro x hx
        simp only [decide_eq_true_eq]
        intro hxa
        exact hnd.1 (hxa ▸ hx)
      rw [ht]
    · rw [List.filter_cons_of_neg ?_, ih hnd.2 a hat]
      simp only [decide_eq_true_eq]
      intro hba
      exact hnd.1 (hba ▸ hat)

/-- Claim C7: the multi-scenario sweep contains exactly one entry marked
selected, that entry's exit price is the input's selected exit price, and the
entries' exit prices are strictly increasing. -/
theorem sweep_selected_sorted (data : ScenarioInput) :
    (((calculateFinancials data).multipleScenarios.filter
        (fun sc => sc.isSelected)).map (fun sc => sc.exitPrice))
      = [data.selectedExitPrice] ∧
    ((calculateFinancials data).multipleScenarios.filter
        (fun sc => sc.isSelected)).length = 1 ∧
    List.Chain' (· < ·)
      ((calculateFinancials data).multipleScenarios.map
        (fun sc => sc.exitPrice)) := by
  have hnd : (allPricesOf data).Nodup :=
    (sortAsc_perm _).nodup_iff.2 (setDedup_nodup _)
  have hmem : data.selectedExitPrice ∈ allPricesOf data :=
    ((sortAsc_perm _).mem_iff).2
      ((mem_setDedup _ _).2 (List.mem_cons_self _ _))
  have hms : (calculateFinancials data).multipleScenarios
      = (allPricesOf data).map (fun price =>
          let result := calculateMetricsForPrice data price
          { exitPrice := price, saleValue := result.saleValue,
            netProfit := result.netGainLoss, roi := result.roi,
            leftoverCash := result.leftoverCash,
            isSelected := if price = data.selectedExitPrice then true else false
            : ScenarioSummary }) := rfl
  have hfilter : (calculateFinancials data).multipleScenarios.filter
      (fun sc => sc.isSelected)
      = ((allPricesOf data).filter
          (fun price => decide (price = data.selectedExitPrice))).map
          (fun price =>
            let result := calculateMetricsForPrice data price
            { exitPrice := price, saleValue := result.saleValue,
              netProfit := result.netGainLoss, roi := result.roi,
              leftoverCash := result.leftoverCash,
              isSelected := if price = data.selectedExitPrice then true
                else false
              : ScenarioSummary }) := by
    rw [hms, List.filter_map]
    congr 1
  have hsingle : (allPricesOf data).filter
      (fun price => decide (price = data.selectedExitPrice))
      = [data.selectedExitPrice] :=
    nodup_filter_eq_singleton _ hnd _ hmem
  have hprices : (calculateFinancials data).multipleScenarios.map
      (fun sc => sc.exitPrice) = allPricesOf data := by
    rw [hms, List.map_map]
    have hid : ((fun sc : ScenarioSummary => sc.exitPrice) ∘ (fun price : ℝ =>
        let result := calculateMetricsForPrice data price
        { exitPrice := price, saleValue := result.saleValue,
          netProfit := result.netGainLoss, roi := result.roi,
          leftoverCash := result.leftoverCash,
          isSelected := if price = data.selectedExitPrice then true else false
          : ScenarioSummary })) = id := by
      funext price
      rfl
    rw [hid, List.map_id]
  refine ⟨?_, ?_, ?_⟩
  · rw [hfilter, hsingle]
    rfl
  · rw [hfilter, hsingle]
    rfl
  · rw [hprices]
    rw [List.chain'_iff_pairwise]
    refine ((sortAsc_sorted _).and hnd).imp ?_
    intro a b hab
    exact lt_of_le_of_ne hab.1 hab.2

/-! ### Ledger-shape lemmas -/

lemma ledgerLoop_succ (p : LedgerParams) (n : ℕ) (st : LedgerState) :
    ledgerLoop p (n + 1) st = ledgerLoop p n (ledgerStep p st) := rfl

/-- Month counters and row months produced by the ledger loop. -/
lemma ledgerLoop_rows_map_month (p : LedgerParams) :
    ∀ (k : ℕ) (st : LedgerState),
      ((ledgerLoop p k st).rows.map (fun row => row.month))
        = st.rows.map (fun row => row.month) ++ List.range' st.month k ∧
      (ledgerLoop p k st).month = st.month + k := by
  intro k
  induction k with
  | zero => intro st; simp [ledgerLoop]
  | succ n ih =>
    intro st
    have hstep := ih (ledgerStep p st)
    have hrows : (ledgerStep p st).rows.map (fun row => row.month)
        = st.rows.map (fun row => row.month) ++ [st.month] := by
      simp [ledgerStep]
    have hm : (ledgerStep p st).month = st.month + 1 := rfl
    constructor
    · rw [ledgerLoop_succ, hstep.1, hrows, hm, List.append_assoc]
      congr 1
    · rw [ledgerLoop_succ, hstep.2, hm]
      omega

/-- Claim C5 (amended): when the home-loan amount is positive and the
possession month is a natural number `P`, the monthly ledger has exactly
`P + 1` rows, one for each month `0, …, P` in order (in particular the month-0
row is present). -/
theorem ledger_shape (data : ScenarioInput) (price : ℝ) (P : ℕ)
    (hL : 0 < homeLoanAmountOf data)
    (hP : possessionOf data = (P : ℝ)) :
    (calculateMetricsForPrice data price).monthlyLedger.length = P + 1 ∧
    (calculateMetricsForPrice data price).monthlyLedger.map
      (fun row => row.month) = List.range (P + 1) := by
  have hml : (calculateMetricsForPrice data price).monthlyLedger
      = (ledgerLoop (ledgerParamsOf data) (ledgerLen (possessionOf data))
          ledgerInit).rows := by
    show monthlyLedgerOf data = _
    unfold monthlyLedgerOf ledgerFinalOf
    rw [if_pos hL]
  have hlen : ledgerLen (possessionOf data) = P + 1 := by
    rw [hP]
    unfold ledgerLen
    rw [if_pos (by positivity)]
    simp
  have hrows := (ledgerLoop_rows_map_month (ledgerParamsOf data)
    (ledgerLen (possessionOf data)) ledgerInit).1
  have hmap : (calculateMetricsForPrice data price).monthlyLedger.map
      (fun row => row.month) = List.range (P + 1) := by
    rw [hml, hrows, hlen]
    simp [ledgerInit, List.range_eq_range']
  refine ⟨?_, hmap⟩
  have hlenmap := congrArg List.length hmap
  simpa using hlenmap

/-- Claim C5 counterexample: with purchase price `0` the home-loan amount is
`0`, the ledger loop is skipped, and the ledger is empty although the
possession month is `5` (no month-0 row, length `0 ≠ 6`). -/
theorem ledger_shape_cex :
    (calculateMetricsForPrice zeroLoanData
        zeroLoanData.selectedExitPrice).monthlyLedger = [] ∧
    possessionOf zeroLoanData = 5 := by
  constructor
  · show monthlyLedgerOf zeroLoanData = []
    unfold monthlyLedgerOf ledgerFinalOf
    rw [if_neg ?_]
    · rfl
    · unfold homeLoanAmountOf totalCostOf homeLoanShareOf loanShares
      norm_num [zeroLoanData, stdProperty, baseAssumptions]
  · rfl

/-- Witness for claim C5 on the concrete default-mode scenario
(`P = 6`, home loan `80`). -/
theorem ledger_shape_witness :
    (calculateMetricsForPrice defaultModeData 12).monthlyLedger.length
      = 6 + 1 ∧
    (calculateMetricsForPrice defaultModeData 12).monthlyLedger.map
      (fun row => row.month) = List.range (6 + 1) :=
  ledger_shape defaultModeData 12 6
    (by norm_num [homeLoanAmountOf, totalCostOf, homeLoanShareOf, loanShares,
      defaultModeData, stdProperty, defaultModeAssumptions, baseAssumptions])
    (by norm_num [possessionOf, defaultModeData, stdProperty])

/-! ### Disbursed-amount bookkeeping -/

lemma findSlab_cons (s : SlabRec) (rest : List SlabRec) (x : ℝ) :
    findSlab (s :: rest) x =
      if s.releaseMonth = x then some s else findSlab rest x := rfl

lemma findSlab_eq_none (rest : List SlabRec) (x : ℝ)
    (h : ∀ s ∈ rest, s.releaseMonth ≠ x) : findSlab rest x = none := by
  induction rest with
  | nil => rfl
  | cons t ts ih =>
    rw [findSlab_cons, if_neg (h t (List.mem_cons_self t ts))]
    exact ih (fun s hs => h s (List.mem_cons_of_mem t hs))

lemma mem_castRange (x : ℝ) (m : ℕ) :
    x ∈ castRange m ↔ ∃ j : ℕ, j < m ∧ x = (j : ℝ) := by
  unfold castRange
  simp

lemma castRange_succ (m : ℕ) : castRange (m + 1) = castRange m ++ [(m : ℝ)] := by
  unfold castRange
  rw [List.range_succ]
  simp

lemma self_not_mem_castRange (m : ℕ) : ((m : ℝ)) ∉ castRange m := by
  rw [mem_castRange]
  rintro ⟨j, hj, hcast⟩
  have : m = j := Nat.cast_injective hcast
  omega

lemma disbursedBy_nil (m : ℕ) : disbursedBy [] m = 0 := rfl

lemma disbursedBy_cons (s : SlabRec) (rest : List SlabRec) (m : ℕ) :
    disbursedBy (s :: rest) m
      = (if s.releaseMonth ∈ castRange m then s.amount else 0) +
        disbursedBy rest m := by
  unfold disbursedBy
  rw [List.filter_cons]
  by_cases h : s.releaseMonth ∈ castRange m
  · simp [h]
  · simp [h]

lemma disbursedBy_zero (sched : List SlabRec) : disbursedBy sched 0 = 0 := by
  unfold disbursedBy
  have h : sched.filter (fun s => decide (s.releaseMonth ∈ castRange 0)) = [] := by
    rw [List.filter_eq_nil_iff]
    intro s _
    simp [castRange]
  rw [h]
  rfl

/-- The one-month step of the disbursed-so-far amount: month `m` adds exactly
the amount found by `find` at release month `m`, provided release months are
duplicate-free. -/
lemma disbursedBy_succ : ∀ (sched : List SlabRec) (m : ℕ),
    (sched.map (fun s => s.releaseMonth)).Nodup →
    disbursedBy sched (m + 1) = disbursedBy sched m +
      (match findSlab sched ((m : ℕ) : ℝ) with
       | some s => s.amount
       | none => 0) := by
  intro sched
  induction sched with
  | nil => intro m _; simp [disbursedBy_nil, findSlab]
  | cons s rest ih =>
    intro m hnd
    rw [List.map_cons, List.nodup_cons] at hnd
    obtain ⟨hs, hrest⟩ := hnd
    rw [disbursedBy_cons, disbursedBy_cons, ih m hrest]
    by_cases hrel : s.releaseMonth = ((m : ℕ) : ℝ)
    · have hfind : findSlab (s :: rest) ((m : ℕ) : ℝ) = some s := by
        rw [findSlab_cons, if_pos hrel]
      have hrestnone : findSlab rest ((m : ℕ) : ℝ) = none := by
        refine findSlab_eq_none rest _ ?_
        intro t ht hteq
        exact hs (by rw [← hrel, ← hteq] at *; exact List.mem_map_of_mem _ ht)
      have hmem1 : s.releaseMonth ∈ castRange (m + 1) := by
        rw [castRange_succ, List.mem_append, List.mem_singleton]
        exact Or.inr hrel
      have hmem0 : s.releaseMonth ∉ castRange m := by
        rw [hrel]
        exact self_not_mem_castRange m
      rw [if_pos hmem1, if_neg hmem0, hfind, hrestnone]
      ring
    · have hfind : findSlab (s :: rest) ((m : ℕ) : ℝ)
          = findSlab rest ((m : ℕ) : ℝ) := by
        rw [findSlab_cons, if_neg hrel]
      have hmem : (s.releaseMonth ∈ castRange (m + 1)) ↔
          (s.releaseMonth ∈ castRange m) := by
        rw [castRange_succ, List.mem_append, List.mem_singleton]
        simp [hrel]
      rw [if_congr hmem rfl rfl, hfind]
      ring

lemma disbursedBy_nonneg (sched : List SlabRec) (m : ℕ)
    (hpos : ∀ sl ∈ sched, 0 ≤ sl.amount) : 0 ≤ disbursedBy sched m := by
  induction sched with
  | nil => simp [disbursedBy_nil]
  | cons s rest ih =>
    rw [disbursedBy_cons]
    have h1 := ih (fun sl hsl => hpos sl (List.mem_cons_of_mem s hsl))
    have h2 : 0 ≤ (if s.releaseMonth ∈ castRange m then s.amount else 0) := by
      split_ifs
      · exact hpos s (List.mem_cons_self s rest)
      · exact le_rfl
    linarith

lemma disbursedBy_le_sum (sched : List SlabRec) (m : ℕ)
    (hpos : ∀ sl ∈ sched, 0 ≤ sl.amount) :
    disbursedBy sched m ≤ (sched.map (fun s => s.amount)).sum := by
  induction sched with
  | nil => simp [disbursedBy_nil]
  | cons s rest ih =>
    rw [disbursedBy_cons, List.map_cons, List.sum_cons]
    have h1 := ih (fun sl hsl => hpos sl (List.mem_cons_of_mem s hsl))
    have h2 : (if s.releaseMonth ∈ castRange m then s.amount else 0)
        ≤ s.amount := by
      split_ifs
      · exact le_rfl
      · exact hpos s (List.mem_cons_self s rest)
    linarith

/-! ### Schedule invariants used by the ledger -/

lemma disburseLoop_amounts_pos (e i a : ℝ) (ha : 0 < a) :
    ∀ (fuel : ℕ) (m r : ℝ) (acc : List SlabRec),
      (∀ sl ∈ acc, 0 < sl.amount) →
      ∀ sl ∈ disburseLoop e i a fuel m r acc, 0 < sl.amount := by
  intro fuel
  induction fuel with
  | zero => intro m r acc hacc sl hsl; exact hacc sl hsl
  | succ n ih =>
    intro m r acc hacc sl hsl
    simp only [disburseLoop] at hsl
    by_cases h1 : m ≤ e
    · rw [if_pos h1] at hsl
      by_cases h2 : r ≤ 1
      · rw [if_pos h2] at hsl
        exact hacc sl hsl
      · rw [if_neg h2] at hsl
        have hr : 0 < r := by linarith [lt_of_not_le h2]
        refine ih (m + i) _ _ ?_ sl hsl
        intro t ht
        rcases List.mem_append.1 ht with ht1 | ht2
        · exact hacc t ht1
        · rw [List.mem_singleton] at ht2
          subst ht2
          show 0 < (mkSlab (acc.length + 1) m _).amount
          simp only [mkSlab]
          split_ifs
          · exact hr
          · exact ha
    · rw [if_neg h1] at hsl
      exact hacc sl hsl

lemma disburseLoop_sum_le (e i a : ℝ) :
    ∀ (fuel : ℕ) (m r : ℝ) (acc : List SlabRec), 0 ≤ r →
      ((disburseLoop e i a fuel m r acc).map (fun s => s.amount)).sum
        ≤ ((acc.map (fun s => s.amount)).sum) + r := by
  intro fuel
  induction fuel with
  | zero => intro m r acc hr; simp only [disburseLoop]; linarith
  | succ n ih =>
    intro m r acc hr
    simp only [disburseLoop]
    by_cases h1 : m ≤ e
    · rw [if_pos h1]
      by_cases h2 : r ≤ 1
      · rw [if_pos h2]
        linarith
      · rw [if_neg h2]
        by_cases habs : e < m + i ∨ r - a < 10
        · simp only [habs, if_true]
          have h := ih (m + i) (r - r) (acc ++ [mkSlab (acc.length + 1) m r])
            (by simp)
          have hsing : ((acc ++ [mkSlab (acc.length + 1) m r]).map
              (fun s => s.amount)).sum
              = (acc.map (fun s => s.amount)).sum + r := by
            simp [mkSlab]
          rw [hsing] at h
          linarith
        · simp only [habs, if_false]
          push_neg at habs
          have h := ih (m + i) (r - a) (acc ++ [mkSlab (acc.length + 1) m a])
            (by linarith [habs.2])
          have hsing : ((acc ++ [mkSlab (acc.length + 1) m a]).map
              (fun s => s.amount)).sum
              = (acc.map (fun s => s.amount)).sum + a := by
            simp [mkSlab]
          rw [hsing] at h
          linarith
    · rw [if_neg h1]
      linarith

lemma disburseLoop_rels_nodup (e i a : ℝ) (hi : i ≠ 0) :
    ∀ (fuel : ℕ) (m r : ℝ) (acc : List SlabRec),
      (∀ sl ∈ acc, (0 < i → sl.releaseMonth < m) ∧
        (i < 0 → m < sl.releaseMonth)) →
      ((acc.map (fun s => s.releaseMonth)).Nodup) →
      ((disburseLoop e i a fuel m r acc).map
        (fun s => s.releaseMonth)).Nodup := by
  intro fuel
  induction fuel with
  | zero => intro m r acc _ hnd; exact hnd
  | succ n ih =>
    intro m r acc hord hnd
    simp only [disburseLoop]
    by_cases h1 : m ≤ e
    · rw [if_pos h1]
      by_cases h2 : r ≤ 1
      · rw [if_pos h2]
        exact hnd
      · rw [if_neg h2]
        have hne : ∀ sl ∈ acc, sl.releaseMonth ≠ m := by
          intro sl hsl
          rcases lt_or_gt_of_ne hi with hneg | hpos
          · exact ne_of_gt ((hord sl hsl).2 hneg)
          · exact ne_of_lt ((hord sl hsl).1 hpos)
        refine ih (m + i) _ _ ?_ ?_
        · intro sl hsl
          rcases List.mem_append.1 hsl with h | h
          · refine ⟨fun hpos => ?_, fun hneg => ?_⟩
            · have := (hord sl h).1 hpos
              linarith
            · have := (hord sl h).2 hneg
              linarith
          · rw [List.mem_singleton] at h
            subst h
            refine ⟨fun hpos => ?_, fun hneg => ?_⟩
            · show (mkSlab (acc.length + 1) m _).releaseMonth < m + i
              simp only [mkSlab]
              linarith
            · show m + i < (mkSlab (acc.length + 1) m _).releaseMonth
              simp only [mkSlab]
              linarith
        · rw [List.map_append]
          refine List.Nodup.append hnd (by simp) ?_
          intro x hx hx2
          simp only [mkSlab, List.map_cons, List.map_nil,
            List.mem_singleton] at hx2
          obtain ⟨sl, hsl, rfl⟩ := List.mem_map.1 hx
          exact hne sl hsl hx2
    · rw [if_neg h1]
      exact hnd

lemma buildSchedule_amounts_pos (L s i e : ℝ) :
    ∀ sl ∈ buildSchedule L s i e, 0 < sl.amount := by
  intro sl hsl
  unfold buildSchedule at hsl
  by_cases hL : 0 < L
  · rw [if_pos hL] at hsl
    by_cases hD : (disburseLoop e i (L / ((max 1 (⌊(e - s) / i⌋ + 1) : ℤ) : ℝ))
        ((⌈(e - s) / i⌉).toNat + 2) s L []).isEmpty
    · rw [if_pos hD] at hsl
      rw [List.mem_singleton] at hsl
      subst hsl
      simpa [mkSlab] using hL
    · rw [if_neg hD] at hsl
      have hNpos : (0 : ℝ) < ((max 1 (⌊(e - s) / i⌋ + 1) : ℤ) : ℝ) := by
        have h1 : (0 : ℤ) < max 1 (⌊(e - s) / i⌋ + 1) :=
          lt_of_lt_of_le one_pos (le_max_left _ _)
        exact_mod_cast h1
      exact disburseLoop_amounts_pos e i _ (div_pos hL hNpos) _ s L []
        (by simp) sl hsl
  · rw [if_neg hL] at hsl
    simp at hsl

lemma buildSchedule_sum_le (L s i e : ℝ) (hL : 0 < L) :
    ((buildSchedule L s i e).map (fun sl => sl.amount)).sum ≤ L := by
  simp only [buildSchedule]
  rw [if_pos hL]
  split_ifs with hD
  · simp [mkSlab]
  · have h := disburseLoop_sum_le e i
      (L / ((max 1 (⌊(e - s) / i⌋ + 1) : ℤ) : ℝ))
      ((⌈(e - s) / i⌉).toNat + 2) s L [] hL.le
    simpa using h

lemma buildSchedule_rels_nodup (L s i e : ℝ) (hi : i ≠ 0) :
    ((buildSchedule L s i e).map (fun sl => sl.releaseMonth)).Nodup := by
  simp only [buildSchedule]
  split_ifs with hL hD
  · simp
  · exact disburseLoop_rels_nodup e i _ hi _ s L [] (by simp) (by simp)
  · simp

lemma jsOr_ne_zero (x d : ℝ) (hd : d ≠ 0) : jsOr x d ≠ 0 := by
  unfold jsOr
  split_ifs with h
  · exact hd
  · exact h

/-! ### Ledger invariants (claim C6) -/

lemma ledgerStep_cumDisb (p : LedgerParams) (st : LedgerState) :
    (ledgerStep p st).cumDisb = st.cumDisb +
      (match findSlab p.idcSchedule ((st.month : ℕ) : ℝ) with
       | some s => s.amount
       | none => 0) := by
  cases hfind : findSlab p.idcSchedule ((st.month : ℕ) : ℝ) with
  | some s => simp [ledgerStep, hfind]
  | none => simp [ledgerStep, hfind]

lemma ledgerStep_rows_decomp (p : LedgerParams) (st : LedgerState) :
    ∃ row : LedgerRow, (ledgerStep p st).rows = st.rows ++ [row] ∧
      (∃ x : ℝ, row.outstandingBalance = max 0 x) ∧
      row.cumulativeDisbursement = (ledgerStep p st).cumDisb :=
  ⟨_, rfl, ⟨_, rfl⟩, rfl⟩

/-- Every ledger row has a clamped (nonnegative) outstanding balance and a
cumulative disbursement bounded by the total schedule amount. -/
lemma ledgerLoop_rows_invariant (p : LedgerParams) (T : ℝ)
    (hnd : (p.idcSchedule.map (fun s => s.releaseMonth)).Nodup)
    (hsum : ((p.idcSchedule.map (fun s => s.amount)).sum) ≤ T)
    (hpos : ∀ sl ∈ p.idcSchedule, 0 ≤ sl.amount) :
    ∀ (k : ℕ) (st : LedgerState),
      st.cumDisb = disbursedBy p.idcSchedule st.month →
      (∀ row ∈ st.rows, 0 ≤ row.outstandingBalance ∧
        row.cumulativeDisbursement ≤ T) →
      ∀ row ∈ (ledgerLoop p k st).rows,
        0 ≤ row.outstandingBalance ∧ row.cumulativeDisbursement ≤ T := by
  intro k
  induction k with
  | zero => intro st _ hrows row hrow; exact hrows row hrow
  | succ n ih =>
    intro st hcd hrows row hrow
    rw [ledgerLoop_succ] at hrow
    have hcd2 : (ledgerStep p st).cumDisb
        = disbursedBy p.idcSchedule (st.month + 1) := by
      rw [ledgerStep_cumDisb, hcd, disbursedBy_succ p.idcSchedule st.month hnd]
    refine ih (ledgerStep p st) ?_ ?_ row hrow
    · rw [hcd2]
      rfl
    · obtain ⟨row2, hdecomp, ⟨x, hbal⟩, hcdrow⟩ := ledgerStep_rows_decomp p st
      rw [hdecomp]
      intro row3 hrow3
      rcases List.mem_append.1 hrow3 with h | h
      · exact hrows row3 h
      · rw [List.mem_singleton] at h
        subst h
        constructor
        · rw [hbal]
          exact le_max_left 0 x
        · rw [hcdrow, hcd2]
          exact le_trans (disbursedBy_le_sum _ _ hpos) hsum

/-- Claim C6: every row of the monthly ledger has a nonnegative outstanding
balance and a cumulative disbursement bounded by the home-loan amount. -/
theorem ledger_invariants (data : ScenarioInput) (price : ℝ) (row : LedgerRow)
    (hrow : row ∈ (calculateMetricsForPrice data price).monthlyLedger) :
    0 ≤ row.outstandingBalance ∧
    row.cumulativeDisbursement
      ≤ (calculateMetricsForPrice data price).homeLoanAmount := by
  have hml : (calculateMetricsForPrice data price).monthlyLedger
      = monthlyLedgerOf data := rfl
  have hha : (calculateMetricsForPrice data price).homeLoanAmount
      = homeLoanAmountOf data := rfl
  rw [hml] at hrow
  rw [hha]
  unfold monthlyLedgerOf ledgerFinalOf at hrow
  by_cases hL : 0 < homeLoanAmountOf data
  · rw [if_pos hL] at hrow
    have hi0 : intervalOf data ≠ 0 := jsOr_ne_zero _ _ (by norm_num)
    have hnd : ((ledgerParamsOf data).idcSchedule.map
        (fun s => s.releaseMonth)).Nodup := by
      show ((idcScheduleRawOf data).map _).Nodup
      exact buildSchedule_rels_nodup _ _ _ _ hi0
    have hpos : ∀ sl ∈ (ledgerParamsOf data).idcSchedule, 0 ≤ sl.amount :=
      fun sl hsl => (buildSchedule_amounts_pos _ _ _ _ sl hsl).le
    have hsum : (((ledgerParamsOf data).idcSchedule.map
        (fun s => s.amount)).sum) ≤ homeLoanAmountOf data :=
      buildSchedule_sum_le _ _ _ _ hL
    exact ledgerLoop_rows_invariant (ledgerParamsOf data)
      (homeLoanAmountOf data) hnd hsum hpos _ ledgerInit
      (by simp [ledgerInit, disbursedBy_zero]) (by simp [ledgerInit]) row hrow
  · rw [if_neg hL] at hrow
    simp [ledgerInit] at hrow

/-- The schedule of `oneMonthData` is the single fallback slab at month `9`. -/
lemma oneMonth_sched : idcScheduleRawOf oneMonthData = [mkSlab 1 9 80] := by
  have hH : homeLoanAmountOf oneMonthData = 80 := by
    norm_num [homeLoanAmountOf, totalCostOf, homeLoanShareOf, loanShares,
      oneMonthData, stdProperty, oneMonthAssumptions, baseAssumptions]
  have hS : startMonthOf oneMonthData = 9 := by
    norm_num [startMonthOf, hlMode, jsOrStr, jsOr, oneMonthData,
      oneMonthAssumptions, baseAssumptions]
  have hI : intervalOf oneMonthData = 3 := by
    norm_num [intervalOf, jsOr, oneMonthData, oneMonthAssumptions,
      baseAssumptions]
  have hE : lastDemandMonthOf oneMonthData = 4 := by
    norm_num [lastDemandMonthOf, lastDemandMonth, jsOr, possessionOf,
      oneMonthData, oneMonthAssumptions, baseAssumptions, stdProperty]
  unfold idcScheduleRawOf
  rw [hH, hS, hI, hE]
  simp only [buildSchedule]
  rw [if_pos (by norm_num : (0 : ℝ) < 80)]
  rw [disburseLoop_exit_month 4 3 _ _ (by omega) 9 80 [] (by norm_num)]
  simp

/-- The ledger of `oneMonthData` is the single month-0 row. -/
lemma oneMonth_ledger :
    (calculateMetricsForPrice oneMonthData 12).monthlyLedger
      = [oneMonthRow] := by
  have hH : 0 < homeLoanAmountOf oneMonthData := by
    norm_num [homeLoanAmountOf, totalCostOf, homeLoanShareOf, loanShares,
      oneMonthData, stdProperty, oneMonthAssumptions, baseAssumptions]
  have hlen : ledgerLen (possessionOf oneMonthData) = 1 := by
    norm_num [ledgerLen, possessionOf, oneMonthData, stdProperty]
  show monthlyLedgerOf oneMonthData = _
  unfold monthlyLedgerOf ledgerFinalOf
  rw [if_pos hH, hlen]
  rw [show (1 : ℕ) = 0 + 1 from rfl, ledgerLoop_succ]
  show (ledgerStep (ledgerParamsOf oneMonthData) ledgerInit).rows = _
  have hds : ¬(("default" : String) = "manual") := by decide
  simp only [ledgerStep, ledgerParamsOf, ledgerInit, oneMonth_sched]
  norm_num [hds, findSlab_cons, findSlab, mkSlab, oneMonthRow,
    realHomeLoanStartMonthOf, lastDemandMonthOf, lastDemandMonth, jsOr,
    hlMode, jsOrStr, possessionOf, personalLoan1EMIOf, calculateEMI,
    personalLoan1AmountOf, totalCostOf, personalLoan1ShareOf, loanShares,
    oneMonthData, oneMonthAssumptions, baseAssumptions, stdProperty]

/-- Witness for claim C6 on the single ledger row of `oneMonthData`. -/
theorem ledger_invariants_witness :
    0 ≤ oneMonthRow.outstandingBalance ∧
    oneMonthRow.cumulativeDisbursement
      ≤ (calculateMetricsForPrice oneMonthData 12).homeLoanAmount :=
  ledger_invariants oneMonthData 12 oneMonthRow
    (by rw [oneMonth_ledger]; exact List.mem_singleton.mpr rfl)

/-! ### IDC grand total (claim C1) -/

lemma list_sum_map_add {α : Type} (l : List α) (f g : α → ℝ) :
    (l.map (fun x => f x + g x)).sum = (l.map f).sum + (l.map g).sum := by
  induction l with
  | nil => simp
  | cons x xs ih =>
    simp only [List.map_cons, List.sum_cons, ih]
    ring

lemma list_sum_map_mul_right {α : Type} (l : List α) (f : α → ℝ) (c : ℝ) :
    (l.map (fun x => f x * c)).sum = (l.map f).sum * c := by
  induction l with
  | nil => simp
  | cons x xs ih =>
    simp only [List.map_cons, List.sum_cons, ih]
    ring

/-- Summing the months `j ≥ k` of `0, …, n-1`. -/
lemma sum_indicator_range (amt : ℝ) (k : ℕ) : ∀ n : ℕ,
    ((List.range n).map (fun j => if k ≤ j then amt else 0)).sum
      = ((n - k : ℕ) : ℝ) * amt := by
  intro n
  induction n with
  | zero => simp
  | succ n ih =>
    rw [List.range_succ, List.map_append, List.sum_append, ih]
    by_cases h : k ≤ n
    · have h1 : n + 1 - k = (n - k) + 1 := by omega
      rw [h1]
      push_cast
      simp [h]
      ring
    · have h1 : n + 1 - k = 0 := by omega
      have h2 : n - k = 0 := by omega
      rw [h1, h2]
      simp [h]

/-- Exchanging the month-by-month and slab-by-slab IDC sums: summing the
disbursed-so-far amounts over months `0, …, E` counts each slab once per month
from its (natural-number) release month through `E`. -/
lemma sum_disbursedBy : ∀ (sched : List SlabRec) (E : ℕ),
    (∀ sl ∈ sched, ∃ k : ℕ, sl.releaseMonth = (k : ℝ)) →
    ((List.range (E + 1)).map (fun j => disbursedBy sched (j + 1))).sum
      = (sched.map (fun sl =>
          sl.amount * max 0 ((E : ℝ) - sl.releaseMonth + 1))).sum := by
  intro sched
  induction sched with
  | nil => intro E _; simp [disbursedBy_nil]
  | cons s rest ih =>
    intro E hrel
    obtain ⟨k, hk⟩ := hrel s (List.mem_cons_self s rest)
    have ihr := ih E (fun sl hsl => hrel sl (List.mem_cons_of_mem _ hsl))
    have hsplit : ∀ j ∈ List.range (E + 1), disbursedBy (s :: rest) (j + 1)
        = (fun j => (if k ≤ j then s.amount else 0) +
            disbursedBy rest (j + 1)) j := by
      intro j _
      rw [disbursedBy_cons]
      congr 1
      rw [hk]
      by_cases h : k ≤ j
      · rw [if_pos h, if_pos ((mem_castRange _ _).2 ⟨k, by omega, rfl⟩)]
      · rw [if_neg ?_, if_neg h]
        rw [mem_castRange]
        rintro ⟨j2, hj2, hcast⟩
        have : k = j2 := Nat.cast_injective hcast
        omega
    rw [List.map_congr_left hsplit, list_sum_map_add, sum_indicator_range,
      ihr, List.map_cons, List.sum_cons]
    congr 1
    rw [hk]
    by_cases h : k ≤ E
    · have h1 : E + 1 - k = E - k + 1 := by omega
      rw [h1, max_eq_right ?_]
      · push_cast [Nat.cast_sub h]
        ring
      · have : (k : ℝ) ≤ (E : ℝ) := Nat.cast_le.2 h
        linarith
    · have h1 : E + 1 - k = 0 := by omega
      rw [h1, max_eq_left ?_]
      · simp
      · have : (E : ℝ) + 1 ≤ (k : ℝ) := by exact_mod_cast (by omega : E + 1 ≤ k)
        linarith

/-- With a natural start month and interval, all release months produced by the
disbursement loop are natural numbers. -/
lemma disburseLoop_rels_nat (e a : ℝ) (iv : ℕ) :
    ∀ (fuel : ℕ) (mn : ℕ) (r : ℝ) (acc : List SlabRec),
      (∀ sl ∈ acc, ∃ k : ℕ, sl.releaseMonth = (k : ℝ)) →
      ∀ sl ∈ disburseLoop e ((iv : ℕ) : ℝ) a fuel ((mn : ℕ) : ℝ) r acc,
        ∃ k : ℕ, sl.releaseMonth = (k : ℝ) := by
  intro fuel
  induction fuel with
  | zero => intro mn r acc hacc sl hsl; exact hacc sl hsl
  | succ n ih =>
    intro mn r acc hacc sl hsl
    simp only [disburseLoop] at hsl
    by_cases h1 : ((mn : ℕ) : ℝ) ≤ e
    · rw [if_pos h1] at hsl
      by_cases h2 : r ≤ 1
      · rw [if_pos h2] at hsl
        exact hacc sl hsl
      · rw [if_neg h2] at hsl
        have hcast : ((mn : ℕ) : ℝ) + ((iv : ℕ) : ℝ) = (((mn + iv : ℕ)) : ℝ) := by
          push_cast
          ring
        rw [hcast] at hsl
        refine ih (mn + iv) _ _ ?_ sl hsl
        intro t ht
        rcases List.mem_append.1 ht with h | h
        · exact hacc t h
        · rw [List.mem_singleton] at h
          subst h
          exact ⟨mn, rfl⟩
    · rw [if_neg h1] at hsl
      exact hacc sl hsl

lemma buildSchedule_rels_nat (L : ℝ) (sn iv : ℕ) (e : ℝ) :
    ∀ sl ∈ buildSchedule L ((sn : ℕ) : ℝ) ((iv : ℕ) : ℝ) e,
      ∃ k : ℕ, sl.releaseMonth = (k : ℝ) := by
  intro sl hsl
  simp only [buildSchedule] at hsl
  split_ifs at hsl with hL hD
  · rw [List.mem_singleton] at hsl
    subst hsl
    exact ⟨sn, rfl⟩
  · exact disburseLoop_rels_nat e _ iv _ sn L [] (by simp) sl hsl
  · simp at hsl

lemma buildSchedule_ne_nil (L s i e : ℝ) (hL : 0 < L) :
    buildSchedule L s i e ≠ [] := by
  simp only [buildSchedule]
  rw [if_pos hL]
  split_ifs with hD
  · simp
  · simpa using hD

/-- The annotation pass keeps the amount and release-month columns, so any sum
that reads only those columns is unchanged. -/
lemma idcAnnotate_proj_sum (R c : ℝ) (g : ℝ → ℝ → ℝ) :
    ∀ (sched : List SlabRec) (acc : ℝ),
      ((idcAnnotate R c sched acc).map
        (fun sl => g sl.amount sl.releaseMonth)).sum
      = (sched.map (fun sl => g sl.amount sl.releaseMonth)).sum := by
  intro sched
  induction sched with
  | nil => intro acc; rfl
  | cons s rest ih =>
    intro acc
    simp only [idcAnnotate]
    rw [List.map_cons, List.map_cons, List.sum_cons, List.sum_cons, ih]

lemma ledgerStep_month (p : LedgerParams) (st : LedgerState) :
    (ledgerStep p st).month = st.month + 1 := rfl

/-- One pre-EMI default-mode step: the running IDC grows by the interest on
everything disbursed so far (including this month's slab), and the outstanding
balance tracks the cumulative disbursement. -/
lemma ledgerStep_preEMI (p : LedgerParams) (E : ℕ)
    (hmode : p.hlModeVal ≠ "manual")
    (hreal : p.realHomeLoanStartMonth = ((E : ℕ) : ℝ) + 1)
    (hnd : (p.idcSchedule.map (fun s => s.releaseMonth)).Nodup)
    (hpos : ∀ sl ∈ p.idcSchedule, 0 ≤ sl.amount)
    (st : LedgerState) (hm : st.month ≤ E)
    (hcd : st.cumDisb = disbursedBy p.idcSchedule st.month)
    (hob : st.outBal = st.cumDisb) :
    (ledgerStep p st).cumDisb = disbursedBy p.idcSchedule (st.month + 1) ∧
    (ledgerStep p st).outBal = (ledgerStep p st).cumDisb ∧
    (ledgerStep p st).runningTotalIDC = st.runningTotalIDC +
      disbursedBy p.idcSchedule (st.month + 1) * (p.hlRate / 100) / 12 := by
  have hmr : ((st.month : ℕ) : ℝ) ≤ ((E : ℕ) : ℝ) := Nat.cast_le.2 hm
  have hlt : ((st.month : ℕ) : ℝ) < p.realHomeLoanStartMonth := by
    rw [hreal]
    linarith
  have hnle : ¬(p.realHomeLoanStartMonth ≤ ((st.month : ℕ) : ℝ)) :=
    not_le.2 hlt
  have hcd2 : (ledgerStep p st).cumDisb
      = disbursedBy p.idcSchedule (st.month + 1) := by
    rw [ledgerStep_cumDisb, hcd, disbursedBy_succ p.idcSchedule st.month hnd]
  have hnn : 0 ≤ disbursedBy p.idcSchedule (st.month + 1) :=
    disbursedBy_nonneg _ _ hpos
  refine ⟨hcd2, ?_, ?_⟩
  · rw [hcd2]
    cases hfind : findSlab p.idcSchedule ((st.month : ℕ) : ℝ) with
    | some s =>
      have hval : st.cumDisb + s.amount
          = disbursedBy p.idcSchedule (st.month + 1) := by
        rw [hcd, disbursedBy_succ p.idcSchedule st.month hnd, hfind]
      simp [ledgerStep, hfind, hmode, hnle, hlt, hval]
    | none =>
      have hval : st.outBal = disbursedBy p.idcSchedule (st.month + 1) := by
        rw [hob, hcd, disbursedBy_succ p.idcSchedule st.month hnd, hfind]
        simp
      simp [ledgerStep, hfind, hmode, hnle, hval]
  · cases hfind : findSlab p.idcSchedule ((st.month : ℕ) : ℝ) with
    | some s =>
      have hval : st.cumDisb + s.amount
          = disbursedBy p.idcSchedule (st.month + 1) := by
        rw [hcd, disbursedBy_succ p.idcSchedule st.month hnd, hfind]
      simp only [ledgerStep, hfind, if_neg hnle, if_neg hmode, if_pos hlt,
        hval, if_false, if_true]
      by_cases hpos2 : 0 < disbursedBy p.idcSchedule (st.month + 1)
      · rw [if_pos hpos2]
      · rw [if_neg hpos2]
        have hz : disbursedBy p.idcSchedule (st.month + 1) = 0 := le_antisymm
          (not_lt.1 hpos2) hnn
        rw [hz]
        ring
    | none =>
      have hval : st.outBal = disbursedBy p.idcSchedule (st.month + 1) := by
        rw [hob, hcd, disbursedBy_succ p.idcSchedule st.month hnd, hfind]
        simp
      simp only [ledgerStep, hfind, if_neg hnle, if_neg hmode, hval,
        if_false, if_true]
      by_cases hpos2 : 0 < disbursedBy p.idcSchedule (st.month + 1)
      · rw [if_pos hpos2]
      · rw [if_neg hpos2]
        have hz : disbursedBy p.idcSchedule (st.month + 1) = 0 := le_antisymm
          (not_lt.1 hpos2) hnn
        rw [hz]
        ring

/-- Running the ledger through the pre-EMI months accumulates exactly the
month-by-month interest on the disbursed-so-far amounts. -/
lemma ledgerLoop_preEMI (p : LedgerParams) (E : ℕ)
    (hmode : p.hlModeVal ≠ "manual")
    (hreal : p.realHomeLoanStartMonth = ((E : ℕ) : ℝ) + 1)
    (hnd : (p.idcSchedule.map (fun s => s.releaseMonth)).Nodup)
    (hpos : ∀ sl ∈ p.idcSchedule, 0 ≤ sl.amount) :
    ∀ (k : ℕ) (st : LedgerState), st.month + k ≤ E + 1 →
      st.cumDisb = disbursedBy p.idcSchedule st.month →
      st.outBal = st.cumDisb →
      (ledgerLoop p k st).month = st.month + k ∧
      (ledgerLoop p k st).runningTotalIDC = st.runningTotalIDC +
        ((List.range k).map (fun j =>
          disbursedBy p.idcSchedule (st.month + j + 1) *
            (p.hlRate / 100) / 12)).sum := by
  intro k
  induction k with
  | zero => intro st _ _ _; simp [ledgerLoop]
  | succ n ih =>
    intro st hk hcd hob
    have hm : st.month ≤ E := by omega
    obtain ⟨hcd2, hob2, hidc2⟩ :=
      ledgerStep_preEMI p E hmode hreal hnd hpos st hm hcd hob
    have hm2 : (ledgerStep p st).month = st.month + 1 := rfl
    have ihall := ih (ledgerStep p st) (by rw [hm2]; omega)
      (by rw [hcd2, hm2]) hob2
    rw [ledgerLoop_succ]
    constructor
    · rw [ihall.1, hm2]
      omega
    · rw [ihall.2, hidc2, hm2]
      rw [List.range_succ_eq_map, List.map_cons, List.sum_cons,
        List.map_map]
      have hcomp : ∀ j ∈ List.range n,
          ((fun j => disbursedBy p.idcSchedule (st.month + j + 1) *
            (p.hlRate / 100) / 12) ∘ Nat.succ) j
          = (fun j => disbursedBy p.idcSchedule (st.month + 1 + j + 1) *
            (p.hlRate / 100) / 12) j := by
        intro j _
        have harith : st.month + Nat.succ j + 1 = st.month + 1 + j + 1 := by
          omega
        simp [Function.comp, harith]
      rw [List.map_congr_left hcomp]
      simp only [Nat.add_zero]
      ring

/-- Once the full-EMI phase has begun, the running IDC total never changes. -/
lemma ledgerLoop_postEMI (p : LedgerParams) :
    ∀ (k : ℕ) (st : LedgerState),
      p.realHomeLoanStartMonth ≤ ((st.month : ℕ) : ℝ) →
      (ledgerLoop p k st).runningTotalIDC = st.runningTotalIDC := by
  intro k
  induction k with
  | zero => intro st _; rfl
  | succ n ih =>
    intro st hge
    rw [ledgerLoop_succ, ih (ledgerStep p st) ?_]
    · simp [ledgerStep, hge]
    · rw [ledgerStep_month]
      push_cast
      linarith

/-- In manual start mode the running IDC total never changes at all. -/
lemma ledgerLoop_manual (p : LedgerParams) (hmode : p.hlModeVal = "manual") :
    ∀ (k : ℕ) (st : LedgerState),
      (ledgerLoop p k st).runningTotalIDC = st.runningTotalIDC := by
  intro k
  induction k with
  | zero => intro st; rfl
  | succ n ih =>
    intro st
    rw [ledgerLoop_succ, ih (ledgerStep p st)]
    simp [ledgerStep, hmode]

lemma ledgerLoop_add (p : LedgerParams) :
    ∀ (a b : ℕ) (st : LedgerState),
      ledgerLoop p (a + b) st = ledgerLoop p b (ledgerLoop p a st) := by
  intro a
  induction a with
  | zero =>
    intro b st
    rw [Nat.zero_add]
    rfl
  | succ n ih =>
    intro b st
    rw [show n + 1 + b = (n + b) + 1 from by omega, ledgerLoop_succ,
      ledgerLoop_succ, ih]

lemma default_ne_manual : ("default" : String) ≠ "manual" := by decide

/-- Claim C1 (amended): in default home-loan start mode, with a positive
home-loan amount, a natural-number disbursement start month, a positive
natural-number interval, a natural-number cutoff month `E`, and a possession
month at least `E`, the report's grand total interest equals the sum over
schedule rows of `amount × rate / 1200 × max 0 (cutoffMonth − releaseMonth + 1)`. -/
theorem idc_grand_total (data : ScenarioInput) (price : ℝ)
    (hmode : hlMode data.assumptions ≠ "manual")
    (hL : 0 < homeLoanAmountOf data)
    (sn : ℕ) (hs : startMonthOf data = ((sn : ℕ) : ℝ))
    (iv : ℕ) (hiv : intervalOf data = ((iv : ℕ) : ℝ)) (hiv0 : 0 < iv)
    (E : ℕ) (hE : idcCutoffMonthOf data = ((E : ℕ) : ℝ))
    (hposs : ((E : ℕ) : ℝ) ≤ possessionOf data) :
    (calculateMetricsForPrice data price).idcReport.grandTotalInterest
      = (((calculateMetricsForPrice data price).idcReport.schedule).map
          (fun sl => sl.amount * data.assumptions.homeLoanRate / 1200 *
            max 0 ((calculateMetricsForPrice data price).idcReport.cutoffMonth
              - sl.releaseMonth + 1))).sum := by
  have hrep : (calculateMetricsForPrice data price).idcReport
      = idcReportOf data := rfl
  rw [hrep]
  have hg : (idcReportOf data).grandTotalInterest = totalIDCOf data := rfl
  have hcut : (idcReportOf data).cutoffMonth = idcCutoffMonthOf data := rfl
  have hschedp : (idcReportOf data).schedule = idcScheduleOf data := rfl
  rw [hg, hschedp]
  simp only [hcut, hE]
  have hraw_ne : idcScheduleRawOf data ≠ [] := by
    unfold idcScheduleRawOf
    exact buildSchedule_ne_nil _ _ _ _ hL
  have hsched : idcScheduleOf data
      = idcAnnotate data.assumptions.homeLoanRate (idcCutoffMonthOf data)
        (idcScheduleRawOf data) 0 := by
    unfold idcScheduleOf
    rw [if_neg (by simpa using hraw_ne)]
  rw [hsched]
  rw [idcAnnotate_proj_sum data.assumptions.homeLoanRate (idcCutoffMonthOf data)
    (fun amt rel => amt * data.assumptions.homeLoanRate / 1200 *
      max 0 (((E : ℕ) : ℝ) - rel + 1)) (idcScheduleRawOf data) 0]
  have hrelnat : ∀ sl ∈ idcScheduleRawOf data,
      ∃ k : ℕ, sl.releaseMonth = (k : ℝ) := by
    intro sl hsl
    unfold idcScheduleRawOf at hsl
    rw [hs, hiv] at hsl
    exact buildSchedule_rels_nat _ sn iv _ sl hsl
  have hivne : intervalOf data ≠ 0 := by
    rw [hiv]
    exact_mod_cast hiv0.ne'
  have hnd : ((idcScheduleRawOf data).map (fun s => s.releaseMonth)).Nodup := by
    unfold idcScheduleRawOf
    exact buildSchedule_rels_nodup _ _ _ _ hivne
  have hpos : ∀ sl ∈ idcScheduleRawOf data, 0 ≤ sl.amount := by
    intro sl hsl
    unfold idcScheduleRawOf at hsl
    exact (buildSchedule_amounts_pos _ _ _ _ sl hsl).le
  have hreal : realHomeLoanStartMonthOf data = ((E : ℕ) : ℝ) + 1 := by
    have h := hE
    unfold idcCutoffMonthOf at h
    linarith
  have hE0 : (0 : ℝ) ≤ possessionOf data := le_trans (by positivity) hposs
  have hlen : ledgerLen (possessionOf data)
      = (⌊possessionOf data⌋).toNat + 1 := by
    unfold ledgerLen
    rw [if_pos hE0]
  have hME : E ≤ (⌊possessionOf data⌋).toNat := by
    have h1 : (E : ℤ) ≤ ⌊possessionOf data⌋ :=
      Int.le_floor.2 (by exact_mod_cast hposs)
    omega
  have htot : totalIDCOf data = (ledgerLoop (ledgerParamsOf data)
      ((⌊possessionOf data⌋).toNat + 1) ledgerInit).runningTotalIDC := by
    unfold totalIDCOf ledgerFinalOf
    rw [if_pos hL, hlen]
  rw [htot]
  rw [show (⌊possessionOf data⌋).toNat + 1
      = (E + 1) + ((⌊possessionOf data⌋).toNat - E) from by omega,
    ledgerLoop_add]
  have hpmode : (ledgerParamsOf data).hlModeVal ≠ "manual" := hmode
  have hpreal : (ledgerParamsOf data).realHomeLoanStartMonth
      = ((E : ℕ) : ℝ) + 1 := hreal
  have hpnd : ((ledgerParamsOf data).idcSchedule.map
      (fun s => s.releaseMonth)).Nodup := hnd
  have hppos : ∀ sl ∈ (ledgerParamsOf data).idcSchedule, 0 ≤ sl.amount := hpos
  have hpre := ledgerLoop_preEMI (ledgerParamsOf data) E hpmode hpreal hpnd
    hppos (E + 1) ledgerInit (by simp [ledgerInit])
    (by simp [ledgerInit, disbursedBy_zero]) (by simp [ledgerInit])
  have hpost := ledgerLoop_postEMI (ledgerParamsOf data)
    ((⌊possessionOf data⌋).toNat - E)
    (ledgerLoop (ledgerParamsOf data) (E + 1) ledgerInit)
    (by rw [hpre.1, hpreal]
        simp [ledgerInit])
  rw [hpost, hpre.2]
  have hpsched : (ledgerParamsOf data).idcSchedule = idcScheduleRawOf data :=
    rfl
  have hprate : (ledgerParamsOf data).hlRate
      = data.assumptions.homeLoanRate := rfl
  simp only [hpsched, hprate, ledgerInit, Nat.zero_add, zero_add]
  have hfact1 : ((List.range (E + 1)).map (fun j =>
      disbursedBy (idcScheduleRawOf data) (j + 1) *
        (data.assumptions.homeLoanRate / 100) / 12)).sum
      = ((List.range (E + 1)).map (fun j =>
          disbursedBy (idcScheduleRawOf data) (j + 1))).sum *
        (data.assumptions.homeLoanRate / 100 / 12) := by
    rw [← list_sum_map_mul_right]
    refine congrArg List.sum (List.map_congr_left ?_)
    intro j _
    ring
  have hfact2 : ((idcScheduleRawOf data).map (fun sl =>
      sl.amount * data.assumptions.homeLoanRate / 1200 *
        max 0 (((E : ℕ) : ℝ) - sl.releaseMonth + 1))).sum
      = ((idcScheduleRawOf data).map (fun sl =>
          sl.amount * max 0 (((E : ℕ) : ℝ) - sl.releaseMonth + 1))).sum *
        (data.assumptions.homeLoanRate / 1200) := by
    rw [← list_sum_map_mul_right]
    refine congrArg List.sum (List.map_congr_left ?_)
    intro sl _
    ring
  rw [hfact1, hfact2, sum_disbursedBy _ E hrelnat]
  ring

/-- Claim C1 counterexample: in manual start mode the ledger accumulates no
IDC, so `grandTotalInterest = 0`, while the schedule's per-slab costs sum to
`4` (one fallback slab of `80` at month `9`, rate `15`, cutoff `12`). -/
theorem idc_grand_total_cex :
    (calculateMetricsForPrice manualModeData
        12).idcReport.grandTotalInterest = 0 ∧
    (((calculateMetricsForPrice manualModeData 12).idcReport.schedule).map
        (fun sl => sl.amount * manualModeData.assumptions.homeLoanRate / 1200 *
          max 0 ((calculateMetricsForPrice manualModeData
            12).idcReport.cutoffMonth - sl.releaseMonth + 1))).sum = 4 ∧
    (0 : ℝ) ≠ 4 := by
  have hL80 : 0 < homeLoanAmountOf manualModeData := by
    norm_num [homeLoanAmountOf, totalCostOf, homeLoanShareOf, loanShares,
      manualModeData, stdProperty, manualModeAssumptions, baseAssumptions]
  have hmodeM : (ledgerParamsOf manualModeData).hlModeVal = "manual" := rfl
  have hschedraw : idcScheduleRawOf manualModeData = [mkSlab 1 9 80] := by
    have hH : homeLoanAmountOf manualModeData = 80 := by
      norm_num [homeLoanAmountOf, totalCostOf, homeLoanShareOf, loanShares,
        manualModeData, stdProperty, manualModeAssumptions, baseAssumptions]
    have hS : startMonthOf manualModeData = 9 := by
      norm_num [startMonthOf, hlMode, jsOrStr, jsOr, manualModeData,
        manualModeAssumptions, baseAssumptions]
    have hI : intervalOf manualModeData = 3 := by
      norm_num [intervalOf, jsOr, manualModeData, manualModeAssumptions,
        baseAssumptions]
    have hEd : lastDemandMonthOf manualModeData = 4 := by
      norm_num [lastDemandMonthOf, lastDemandMonth, jsOr, possessionOf,
        manualModeData, manualModeAssumptions, baseAssumptions, stdProperty]
    unfold idcScheduleRawOf
    rw [hH, hS, hI, hEd]
    simp only [buildSchedule]
    rw [if_pos (by norm_num : (0 : ℝ) < 80)]
    rw [disburseLoop_exit_month 4 3 _ _ (by omega) 9 80 [] (by norm_num)]
    simp
  have hcut : (calculateMetricsForPrice manualModeData
      12).idcReport.cutoffMonth = 12 := by
    show idcCutoffMonthOf manualModeData = 12
    have hm : hlMode manualModeData.assumptions = "manual" := by decide
    unfold idcCutoffMonthOf realHomeLoanStartMonthOf
    rw [if_pos hm]
    norm_num [manualModeData, manualModeAssumptions, baseAssumptions]
  refine ⟨?_, ?_, by norm_num⟩
  · show totalIDCOf manualModeData = 0
    unfold totalIDCOf ledgerFinalOf
    rw [if_pos hL80]
    rw [ledgerLoop_manual _ hmodeM _ _]
    rfl
  · have hschedp : (calculateMetricsForPrice manualModeData
        12).idcReport.schedule = idcScheduleOf manualModeData := rfl
    rw [hschedp]
    simp only [hcut]
    have hraw_ne : idcScheduleRawOf manualModeData ≠ [] := by
      rw [hschedraw]
      simp
    have hsched2 : idcScheduleOf manualModeData
        = idcAnnotate manualModeData.assumptions.homeLoanRate
          (idcCutoffMonthOf manualModeData)
          (idcScheduleRawOf manualModeData) 0 := by
      unfold idcScheduleOf
      rw [if_neg (by simpa using hraw_ne)]
    rw [hsched2]
    rw [idcAnnotate_proj_sum manualModeData.assumptions.homeLoanRate
      (idcCutoffMonthOf manualModeData)
      (fun amt rel => amt * manualModeData.assumptions.homeLoanRate / 1200 *
        max 0 ((12 : ℝ) - rel + 1)) (idcScheduleRawOf manualModeData) 0]
    rw [hschedraw]
    norm_num [mkSlab, manualModeData, manualModeAssumptions, baseAssumptions]

/-- Witness for claim C1 on the concrete default-mode scenario
(start `1`, interval `3`, cutoff `4`, possession `6`). -/
theorem idc_grand_total_witness :
    (calculateMetricsForPrice defaultModeData
        12).idcReport.grandTotalInterest
      = (((calculateMetricsForPrice defaultModeData 12).idcReport.schedule).map
          (fun sl => sl.amount * defaultModeData.assumptions.homeLoanRate /
            1200 * max 0 ((calculateMetricsForPrice defaultModeData
              12).idcReport.cutoffMonth - sl.releaseMonth + 1))).sum :=
  idc_grand_total defaultModeData 12
    (by
      have h : hlMode defaultModeData.assumptions = "default" := rfl
      rw [h]
      exact default_ne_manual)
    (by norm_num [homeLoanAmountOf, totalCostOf, homeLoanShareOf, loanShares,
      defaultModeData, stdProperty, defaultModeAssumptions, baseAssumptions])
    1
    (by norm_num [startMonthOf, hlMode, jsOrStr, jsOr, defaultModeData,
      defaultModeAssumptions, baseAssumptions, default_ne_manual])
    3
    (by norm_num [intervalOf, jsOr, defaultModeData, defaultModeAssumptions,
      baseAssumptions])
    (by norm_num)
    4
    (by norm_num [idcCutoffMonthOf, realHomeLoanStartMonthOf, hlMode, jsOrStr,
      lastDemandMonthOf, lastDemandMonth, jsOr, possessionOf, defaultModeData,
      defaultModeAssumptions, baseAssumptions, stdProperty, default_ne_manual])
    (by norm_num [possessionOf, defaultModeData, stdProperty])

/-- Claim C10: replacing only `otherCharges`, `stampDuty` and `gstPercentage`
leaves `calculateFinancials`' totalCost, loan amounts, down payment,
totalEMIPaid, saleValue, netGainLoss and roi unchanged; the ancillary charges
are computed as `size × price × (pct / 100)` but never enter the total cost,
which always equals `propertySize × purchasePrice`. -/
theorem ancillary_independence (data : ScenarioInput) (oc sd g : ℝ) :
    (calculateFinancials (withAncillary data oc sd
        g)).detailedBreakdown.totalCost
      = (calculateFinancials data).detailedBreakdown.totalCost ∧
    (calculateFinancials (withAncillary data oc sd
        g)).detailedBreakdown.homeLoanAmount
      = (calculateFinancials data).detailedBreakdown.homeLoanAmount ∧
    (calculateFinancials (withAncillary data oc sd
        g)).detailedBreakdown.personalLoan1Amount
      = (calculateFinancials data).detailedBreakdown.personalLoan1Amount ∧
    (calculateFinancials (withAncillary data oc sd
        g)).detailedBreakdown.personalLoan2Amount
      = (calculateFinancials data).detailedBreakdown.personalLoan2Amount ∧
    (calculateFinancials (withAncillary data oc sd
        g)).detailedBreakdown.downPaymentAmount
      = (calculateFinancials data).detailedBreakdown.downPaymentAmount ∧
    (calculateFinancials (withAncillary data oc sd
        g)).detailedBreakdown.totalEMIPaid
      = (calculateFinancials data).detailedBreakdown.totalEMIPaid ∧
    (calculateFinancials (withAncillary data oc sd
        g)).detailedBreakdown.saleValue
      = (calculateFinancials data).detailedBreakdown.saleValue ∧
    (calculateFinancials (withAncillary data oc sd
        g)).detailedBreakdown.netGainLoss
      = (calculateFinancials data).detailedBreakdown.netGainLoss ∧
    (calculateFinancials (withAncillary data oc sd g)).detailedBreakdown.roi
      = (calculateFinancials data).detailedBreakdown.roi ∧
    (calculateFinancials (withAncillary data oc sd
        g)).detailedBreakdown.stampDutyCost
      = data.selectedProperty.size * data.purchasePrice * (sd / 100) ∧
    (calculateFinancials (withAncillary data oc sd
        g)).detailedBreakdown.gstCost
      = data.selectedProperty.size * data.purchasePrice * (g / 100) ∧
    (calculateFinancials (withAncillary data oc sd
        g)).detailedBreakdown.totalCost
      = data.selectedProperty.size * data.purchasePrice :=
  ⟨rfl, rfl, rfl, rfl, rfl, rfl, rfl, rfl, rfl, rfl, rfl, rfl⟩

end PropertyBackend
